import Mathlib

/-!
# Verification of the unstructured-mesh CUDA back end of dawn

Shallow embedding of

* `src/driver-includes/cuda_utils.hpp`: `reshape`, `reshape_back`, `generateNbhTable`;
* `src/dawn/CodeGen/Cuda-ico/CudaIcoCodeGen.cpp`: `generateGridFun`,
  `intervalBoundToString`, `generateKIntervalBounds`, the vertical loop emitted by
  `generateAllCudaKernels` and the capacity constant emitted by
  `generateStencilInstantiation`; `intervalsConsistent`, `getUsedFields`,
  `CollectIterationSpaces`, the kernel signature of `generateAllCudaKernels` and the kernel
  call, the horizontal range and the set-up check of `generateRunFun`, the bodies emitted
  by `generateAllAPIVerifyFunctions`, `generateCopyMemoryFun`, `generateCopyBackFun`,
  `generateStencilSetup` and `generateStencilFree`.

Conventions of the embedding.

* A C buffer (`float_type*`, `std::vector<int>`) is a `List`; `output[i] = v` is `List.set`
  and `input[i]` is `List.getD` (an access outside the buffer, undefined in C++, leaves the
  buffer unchanged resp. reads `default`; the theorems show the accesses are inside).
* C `int` values are mathematical integers: signed arithmetic is followed only on the
  executions on which it does not overflow (overflow is undefined behaviour). The emitted
  function `grid`, whose arguments range over all of `int`, is the exception: its additions
  are reduced to 32 bits (`toInt32`), as the machine does. Sizes and
  counts that are used as loop bounds from `0` are natural numbers; a negative `int` size
  runs no iteration, exactly like `0`.
* Generated code is embedded by its meaning: an emitted C expression is a term of a small
  expression type, evaluated by `eval`; an emitted parameter or argument is a constructor
  that keeps the datum whose name is printed; an emitted function body is the function it
  computes, with the calls that leave the sources (`verify_field`, the kernels) as
  parameters.
* A `std::unordered_set` is the list of its elements in the order of first insertion, a
  `std::set` the list of its elements in increasing order.
-/

namespace dawn

/-! ## Field layout: `reshape` and `reshape_back` (cuda_utils.hpp) -/

namespace Dense

end Dense

namespace Sparse

end Sparse

/-! ## Neighbour tables: `generateNbhTable` (cuda_utils.hpp) -/

/-- The enumeration `dawn::LocationType`. -/
inductive LocationType
  | Cells
  | Edges
  | Vertices
  deriving DecidableEq, Repr

/-- The type `ast::UnstructuredIterationSpace`, with the two members the generator reads. -/
structure UnstructuredIterationSpace where
  Chain : List LocationType
  IncludeCenter : Bool
  deriving DecidableEq, Repr

/-- The mesh interface `generateNbhTable` is written against (`getCells`, `getEdges`,
`getVertices`, `getNeighbors` of `unstructured_interface.hpp`), taken as parameters: the
element indices of each kind and the neighbour query. -/
structure Mesh where
  getCells : List Int
  getEdges : List Int
  getVertices : List Int
  getNeighbors : List LocationType → Int → Bool → List Int

/-- The macro `DEVICE_MISSING_VALUE`, defined as `-1`. -/
def DEVICE_MISSING_VALUE : Int := -1

/-- The vector `elems` of `generateNbhTable`: all elements of kind `front`. -/
def nbhElems (mesh : Mesh) (front : LocationType) : List Int :=
  match front with
  | .Cells => mesh.getCells
  | .Edges => mesh.getEdges
  | .Vertices => mesh.getVertices

/-- The vector `hostTable` of `generateNbhTable` (element-major): for each element, in
order, `numNbhPerElement` entries are pushed, the neighbour of index `nbhIdx` when the
neighbour list has one and `DEVICE_MISSING_VALUE` otherwise. -/
def nbhHostTable (mesh : Mesh) (chain : List LocationType) (elems : List Int)
    (numNbhPerElement : Nat) (includeCenter : Bool) : List Int :=
  elems.foldl (fun hostTable elem =>
    let neighbors := mesh.getNeighbors chain elem includeCenter
    (List.range numNbhPerElement).foldl (fun hostTable nbhIdx =>
      if h : nbhIdx < neighbors.length then
        hostTable ++ [neighbors[nbhIdx]]
      else
        hostTable ++ [DEVICE_MISSING_VALUE]) hostTable) []

/-- The vector `transposedHostTable` of `generateNbhTable` (slot-major), created with
`numElements * numNbhPerElement` zero entries and filled by the two loops. -/
def nbhTranspose (hostTable : List Int) (numElements numNbhPerElement : Nat) : List Int :=
  (List.range numElements).foldl (fun transposedHostTable i =>
    (List.range numNbhPerElement).foldl (fun transposedHostTable j =>
      transposedHostTable.set (j * numElements + i)
        (hostTable.getD (i * numNbhPerElement + j) 0))
      transposedHostTable) (List.replicate (numElements * numNbhPerElement) 0)

/-- Function `generateNbhTable(mesh, chain, numElements, numNbhPerElement, target,
includeCenter)`:
the contents copied to `target`, or `none` when `chain.front()` does not exist or one of
the two assertions fails. (A negative `numElements` fails the first assertion, so the
counts are natural numbers here.) -/
def generateNbhTable (mesh : Mesh) (chain : List LocationType)
    (numElements numNbhPerElement : Nat) (includeCenter : Bool) : Option (List Int) :=
  match chain.head? with
  | none => none
  | some front =>
    let elems := nbhElems mesh front
    if elems.length ≠ numElements then none
    else
      let hostTable := nbhHostTable mesh chain elems numNbhPerElement includeCenter
      if hostTable.length ≠ numElements * numNbhPerElement then none
      else some (nbhTranspose hostTable numElements numNbhPerElement)

/-- The row of one element in the element-major table, stated directly: slot `j` holds the
`j`-th neighbour when it exists and `DEVICE_MISSING_VALUE` otherwise. -/
def nbhRow (neighbors : List Int) (numNbhPerElement : Nat) : List Int :=
  (List.range numNbhPerElement).map (fun j => neighbors[j]?.getD DEVICE_MISSING_VALUE)

/-! ## Emitted C expressions -/

/-- The variables that occur in the emitted bound expressions. -/
inductive KVar
  | kSize
  | kidx
  | LEVELS_PER_THREAD
  deriving DecidableEq, Repr

/-- An emitted C integer expression. -/
inductive CExpr
  | lit (n : Int)
  | var (v : KVar)
  | add (a b : CExpr)
  | sub (a b : CExpr)
  | mul (a b : CExpr)
  deriving Repr

/-- Value of an emitted expression. -/
def CExpr.eval (env : KVar → Int) : CExpr → Int
  | .lit n => n
  | .var v => env v
  | .add a b => a.eval env + b.eval env
  | .sub a b => a.eval env - b.eval env
  | .mul a b => a.eval env * b.eval env

/-- The values of `kSize`, `kidx` and `LEVELS_PER_THREAD` in one thread of a kernel. -/
def kernelEnv (kSize kidx lpt : Int) : KVar → Int
  | .kSize => kSize
  | .kidx => kidx
  | .LEVELS_PER_THREAD => lpt

/-- The initialiser of the `static const int` capacity member emitted by
`generateStencilInstantiation` for an iteration space: `ICOChainSize(space)`, followed by
`+ 1` when `space.IncludeCenter`. `ICOChainSize` (IcoChainSizes.h) is a parameter. -/
def sparseSizeInit (ICOChainSize : UnstructuredIterationSpace → Nat)
    (space : UnstructuredIterationSpace) : CExpr :=
  let spaceStr := CExpr.lit (ICOChainSize space)
  if space.IncludeCenter then CExpr.add spaceStr (CExpr.lit 1) else spaceStr

/-- Value of the emitted capacity constant. -/
def sparseSize (ICOChainSize : UnstructuredIterationSpace → Nat)
    (space : UnstructuredIterationSpace) : Nat :=
  ((sparseSizeInit ICOChainSize space).eval (kernelEnv 0 0 0)).toNat

/-! ## Launch grid: the function `grid` emitted by `generateGridFun` -/

/-- CUDA `dim3`: three `unsigned int`. -/
structure dim3 where
  x : Nat
  y : Nat
  z : Nat
  deriving DecidableEq, Repr

/-- Conversion of an `int` to `unsigned int` (32 bit). -/
def toUnsigned (v : Int) : Nat := (v % 2 ^ 32).toNat

/-- The value of a 32-bit `int` result (two's complement): `v` reduced to the range from
`-2 ^ 31` to `2 ^ 31 - 1`. -/
def toInt32 (v : Int) : Int := (v + 2 ^ 31) % 2 ^ 32 - 2 ^ 31

/-- The emitted `dim3 grid(int kSize, int elSize, bool kparallel)`; the macros `BLOCK_SIZE`
and `LEVELS_PER_THREAD` of the generated file are parameters. The two additions of
`kSize + LEVELS_PER_THREAD - 1` and of `elSize + BLOCK_SIZE - 1` are 32-bit `int`
additions, `/` is C division, and the `int` quotients are converted to the `unsigned int`
components of `dim3`. -/
def grid (BLOCK_SIZE LEVELS_PER_THREAD : Int) (kSize elSize : Int) (kparallel : Bool) : dim3 :=
  if kparallel then
    let dK := Int.tdiv (toInt32 (toInt32 (kSize + LEVELS_PER_THREAD) - 1)) LEVELS_PER_THREAD
    ⟨toUnsigned (Int.tdiv (toInt32 (toInt32 (elSize + BLOCK_SIZE) - 1)) BLOCK_SIZE),
      toUnsigned dK, toUnsigned 1⟩
  else
    ⟨toUnsigned (Int.tdiv (toInt32 (toInt32 (elSize + BLOCK_SIZE) - 1)) BLOCK_SIZE),
      toUnsigned 1, toUnsigned 1⟩

/-! ## Vertical bounds: `intervalBoundToString`, `generateKIntervalBounds` and the k loop -/

/-- The enumeration `iir::LoopOrderKind`. -/
inductive LoopOrderKind
  | Forward
  | Backward
  | Parallel
  deriving DecidableEq, Repr

/-- The enumeration `iir::Interval::Bound`. -/
inductive Bound
  | upper
  | lower
  deriving DecidableEq, Repr

/-- Modelled from the spec: `iir::Interval` (dawn/IIR/Interval.h is not among the sources).
Each of the two bounds is either an absolute level index or the end-of-column marker, with
an integer offset; the fields are the values of the accessors the generator calls. -/
structure Interval where
  lowerLevel : Int
  upperLevel : Int
  lowerOffset : Int
  upperOffset : Int
  lowerLevelIsEnd : Bool
  upperLevelIsEnd : Bool
  deriving DecidableEq, Repr

/-- Accessor `interval.levelIsEnd(bound)`. -/
def Interval.levelIsEnd (interval : Interval) (bound : Bound) : Bool :=
  match bound with
  | .lower => interval.lowerLevelIsEnd
  | .upper => interval.upperLevelIsEnd

/-- Accessor `interval.offset(bound)`. -/
def Interval.offset (interval : Interval) (bound : Bound) : Int :=
  match bound with
  | .lower => interval.lowerOffset
  | .upper => interval.upperOffset

/-- Accessor `interval.level(bound)`. -/
def Interval.level (interval : Interval) (bound : Bound) : Int :=
  match bound with
  | .lower => interval.lowerLevel
  | .upper => interval.upperLevel

/-- The resolved bound in the words of the specification: `level + offset` when the bound
is absolute and `kSize + offset` when it is end-relative. -/
def resolvedBound (interval : Interval) (bound : Bound) (kSize : Int) : Int :=
  if interval.levelIsEnd bound then kSize + interval.offset bound
  else interval.level bound + interval.offset bound

/-- Function `CudaIcoCodeGen::intervalBoundToString`: `kSize + <offset>` for an end-relative bound,
`<offset>` otherwise. -/
def intervalBoundToString (interval : Interval) (bound : Bound) : CExpr :=
  if interval.levelIsEnd bound then
    CExpr.add (CExpr.var KVar.kSize) (CExpr.lit (interval.offset bound))
  else
    CExpr.lit (interval.offset bound)

/-- Function `CudaIcoCodeGen::generateKIntervalBounds`: the initialisers of `klo` and `khi`. -/
def generateKIntervalBounds (interval : Interval) (loopOrder : LoopOrderKind) :
    CExpr × CExpr :=
  match loopOrder with
  | .Parallel =>
    if interval.lowerLevelIsEnd && interval.upperLevelIsEnd then
      (CExpr.add (CExpr.mul (CExpr.var KVar.kidx) (CExpr.var KVar.LEVELS_PER_THREAD))
          (CExpr.add (CExpr.var KVar.kSize) (CExpr.lit interval.lowerOffset)),
        CExpr.add
          (CExpr.mul (CExpr.add (CExpr.var KVar.kidx) (CExpr.lit 1))
            (CExpr.var KVar.LEVELS_PER_THREAD))
          (CExpr.add (CExpr.var KVar.kSize) (CExpr.lit interval.lowerOffset)))
    else
      (CExpr.add (CExpr.mul (CExpr.var KVar.kidx) (CExpr.var KVar.LEVELS_PER_THREAD))
          (CExpr.lit interval.lowerOffset),
        CExpr.add
          (CExpr.mul (CExpr.add (CExpr.var KVar.kidx) (CExpr.lit 1))
            (CExpr.var KVar.LEVELS_PER_THREAD))
          (CExpr.lit interval.lowerOffset))
  | .Forward =>
    (intervalBoundToString interval Bound.lower, intervalBoundToString interval Bound.upper)
  | .Backward =>
    (CExpr.sub (intervalBoundToString interval Bound.upper) (CExpr.lit 1),
      CExpr.sub (intervalBoundToString interval Bound.lower) (CExpr.lit 1))

/-- The expression `k_size` of `generateAllCudaKernels`, against which the loop body
guards `kIter`: `kSize + <upperOffset>` or `<upperLevel> + <upperOffset>`. -/
def kernelKSize (interval : Interval) : CExpr :=
  if interval.levelIsEnd Bound.upper then
    CExpr.add (CExpr.var KVar.kSize) (CExpr.lit interval.upperOffset)
  else
    CExpr.add (CExpr.lit interval.upperLevel) (CExpr.lit interval.upperOffset)

/-- Function `comparisonOperator(loopOrder)`, applied to `kIter` and `khi`. -/
def comparisonOperator (loopOrder : LoopOrderKind) (kIter khi : Int) : Bool :=
  if loopOrder = LoopOrderKind.Backward then decide (kIter > khi) else decide (kIter < khi)

/-- Function `incrementIterator`, applied to the value of `kIter`. -/
def incrementIterator (kIter : Int) (loopOrder : LoopOrderKind) : Int :=
  if loopOrder = LoopOrderKind.Backward then kIter - 1 else kIter + 1

/-- The emitted loop
`for(int kIter = klo; kIter <cmp> khi; kIter<inc>) { if (kIter >= k_size) return; body }`
run from `kIter` for at most `fuel` iterations: the levels at which the body executes,
in order. -/
def kLoop (loopOrder : LoopOrderKind) (khi kSizeGuard : Int) : Nat → Int → List Int
  | 0, _ => []
  | fuel + 1, kIter =>
    if comparisonOperator loopOrder kIter khi then
      if kIter ≥ kSizeGuard then []
      else kIter :: kLoop loopOrder khi kSizeGuard fuel (incrementIterator kIter loopOrder)
    else []

/-- The levels at which a thread with vertical index `kidx` that passes the horizontal
guard executes the body of the kernel generated for a stage with the given interval and
loop order. The loop leaves after at most `|khi - klo|` iterations, which is the fuel
supplied. -/
def kernelLevels (interval : Interval) (loopOrder : LoopOrderKind)
    (kSize kidx lpt : Int) : List Int :=
  let env := kernelEnv kSize kidx lpt
  let klo := (generateKIntervalBounds interval loopOrder).1.eval env
  let khi := (generateKIntervalBounds interval loopOrder).2.eval env
  kLoop loopOrder khi ((kernelKSize interval).eval env) (khi - klo).natAbs klo

/-! ## The IIR read by the generator -/

/-- Statement and expression trees as the visitor `CollectIterationSpaces` sees them:
neighbour reductions and neighbour loops carry an iteration space, every other node is
only forwarded to its children. -/
inductive ASTNode
  | ReductionOverNeighborExpr (iterSpace : UnstructuredIterationSpace) (children : List ASTNode)
  | LoopStmt (iterSpace : UnstructuredIterationSpace) (children : List ASTNode)
  | other (children : List ASTNode)

/-- Insertion into a `std::unordered_set`: nothing happens when the element is present.
The iteration order of the container is taken to be the order of first insertion. -/
def unorderedSetInsert {β : Type} [DecidableEq β] (s : List β) (x : β) : List β :=
  if x ∈ s then s else s ++ [x]

/-- Insertion into a `std::set`: nothing happens when the element is present, otherwise the
element is placed in increasing order. Iteration is in list order. -/
def stdSetInsert (s : List String) (x : String) : List String :=
  if x ∈ s then s else s.orderedInsert (fun a b => a ≤ b) x

mutual
/-- The two `visit` overrides of `CollectIterationSpaces` and the forwarding visit of every
other node, acting on the member `spaces_`. -/
def CollectIterationSpaces.visit (spaces_ : List UnstructuredIterationSpace) :
    ASTNode → List UnstructuredIterationSpace
  | .ReductionOverNeighborExpr iterSpace children =>
    CollectIterationSpaces.visitChildren (unorderedSetInsert spaces_ iterSpace) children
  | .LoopStmt iterSpace children =>
    CollectIterationSpaces.visitChildren (unorderedSetInsert spaces_ iterSpace) children
  | .other children => CollectIterationSpaces.visitChildren spaces_ children
/-- The loop `for(auto c : getChildren()) c->accept(*this)`. -/
def CollectIterationSpaces.visitChildren (spaces_ : List UnstructuredIterationSpace) :
    List ASTNode → List UnstructuredIterationSpace
  | [] => spaces_
  | c :: cs => CollectIterationSpaces.visitChildren (CollectIterationSpaces.visit spaces_ c) cs
end

/-- The enumeration `iir::Field::IntendKind`. -/
inductive IntendKind
  | Output
  | InputOutput
  | Input
  deriving DecidableEq, Repr

/-- Modelled from the spec: `ast::UnstructuredFieldDimension` (not among the sources). A
horizontal dimension is dense over one element kind and, for a sparse field, continues
with the further hops of a neighbour chain; the chain starts at the dense kind. -/
structure UnstructuredFieldDimension where
  denseLocationType : LocationType
  sparseHops : List LocationType
  includeCenter : Bool
  deriving DecidableEq, Repr

/-- Accessor `getDenseLocationType()`. -/
def UnstructuredFieldDimension.getDenseLocationType (d : UnstructuredFieldDimension) :
    LocationType := d.denseLocationType

/-- Accessor `getNeighborChain()`. -/
def UnstructuredFieldDimension.getNeighborChain (d : UnstructuredFieldDimension) :
    List LocationType := d.denseLocationType :: d.sparseHops

/-- Accessor `getIterSpace()`. -/
def UnstructuredFieldDimension.getIterSpace (d : UnstructuredFieldDimension) :
    UnstructuredIterationSpace := ⟨d.getNeighborChain, d.includeCenter⟩

/-- Accessor `isSparse()`. -/
def UnstructuredFieldDimension.isSparse (d : UnstructuredFieldDimension) : Bool :=
  !d.sparseHops.isEmpty

/-- Accessor `isDense()`. -/
def UnstructuredFieldDimension.isDense (d : UnstructuredFieldDimension) : Bool :=
  !d.isSparse

/-- Modelled from the spec: `ast::FieldDimensions` (not among the sources). A field is
vertical-only, or has a horizontal dimension and optionally a vertical one (`K()`). -/
inductive FieldDimensions
  | vertical
  | horizontal (dims : UnstructuredFieldDimension) (K : Bool)
  deriving DecidableEq, Repr

/-- Accessor `isVertical()`. -/
def FieldDimensions.isVertical : FieldDimensions → Bool
  | .vertical => true
  | .horizontal _ _ => false

/-- Accessor `K()`. -/
def FieldDimensions.K : FieldDimensions → Bool
  | .vertical => true
  | .horizontal _ k => k

/-- The part of `iir::Field` the generator reads. -/
structure Field where
  accessID : Int
  intend : IntendKind
  dimensions : FieldDimensions
  deriving DecidableEq, Repr

/-- The part of `iir::DoMethod` the generator reads. -/
structure DoMethod where
  interval : Interval
  ast : List ASTNode

/-- The part of `iir::Stage` the generator reads; `fields` is the result of
`support::orderMap(stage->getFields())`, in its iteration order, and
`unstructuredIterationSpace` is the optional horizontal sub-domain, an interval whose
levels are the numeric codes of the sub-domain tags. -/
structure Stage where
  stageID : Int
  locationType : LocationType
  unstructuredIterationSpace : Option Interval
  fields : List Field
  doMethods : List DoMethod

/-- The iteration spaces of a stage as both generators compute them: one collector visits
the AST of every DoMethod of the stage; `chains` is its `getSpaces()`. -/
def stageChains (stage : Stage) : List UnstructuredIterationSpace :=
  stage.doMethods.foldl (fun spaces_ doMethod =>
    CollectIterationSpaces.visitChildren spaces_ doMethod.ast) []

/-- The set `locArgs` both generators build: the stride names of the dense location types
of the non-vertical fields whose dense location type is not that of the stage.
`locToStrideString` (LocToStringUtils.h) is a parameter. -/
def locArgs (locToStrideString : LocationType → String) (loc : LocationType)
    (fields : List Field) : List String :=
  fields.foldl (fun locArgs field =>
    match field.dimensions with
    | .vertical => locArgs
    | .horizontal dims _ =>
      if dims.getDenseLocationType = loc then locArgs
      else stdSetInsert locArgs (locToStrideString dims.getDenseLocationType)) []

/-! ## Kernel signature (`generateAllCudaKernels`) and kernel call (`generateRunFun`) -/

/-- One parameter declaration of an emitted kernel. Each constructor stands for one
`addArg` of `generateAllCudaKernels`; names that are printed through helpers of
LocToStringUtils.h or through the metadata are kept as the datum that is printed. -/
inductive KernelParam
  | globals
  | denseSize (strideName : String)
  | kSize
  | hOffset
  | hSize
  | table (chain : UnstructuredIterationSpace)
  | field (isConst : Bool) (accessID : Int)
  deriving DecidableEq, Repr

/-- One argument expression of an emitted kernel call. Each constructor stands for one
piece `generateRunFun` writes between the parentheses of the call. -/
inductive CallArg
  | m_globals
  | meshStride (strideName : String)
  | kSize_
  | hoffset (stageID : Int)
  | hsize (stageID : Int)
  | meshTable (chain : UnstructuredIterationSpace)
  | fieldMember (accessID : Int)
  deriving DecidableEq, Repr

/-- What a kernel parameter or a call argument stands for. -/
inductive ArgRole
  | globals
  | denseSize (strideName : String)
  | kSize
  | hOffset
  | hSize
  | table (chain : UnstructuredIterationSpace)
  | field (accessID : Int)
  deriving DecidableEq, Repr

/-- Role of a kernel parameter. -/
def KernelParam.role : KernelParam → ArgRole
  | .globals => .globals
  | .denseSize n => .denseSize n
  | .kSize => .kSize
  | .hOffset => .hOffset
  | .hSize => .hSize
  | .table c => .table c
  | .field _ id => .field id

/-- Role of a call argument. -/
def CallArg.role : CallArg → ArgRole
  | .m_globals => .globals
  | .meshStride n => .denseSize n
  | .kSize_ => .kSize
  | .hoffset _ => .hOffset
  | .hsize _ => .hSize
  | .meshTable c => .table c
  | .fieldMember id => .field id

/-- The template parameter list of the kernel (`template<int ..., int ...>`), one entry
per chain; empty when the stage has no chains. -/
def kernelTemplateParams (stage : Stage) : List UnstructuredIterationSpace :=
  let chains := stageChains stage
  if chains.length ≠ 0 then chains.foldl (fun ss chain => ss ++ [chain]) [] else []

/-- The parameter list of the kernel emitted by `generateAllCudaKernels` for a stage. -/
def kernelParams (locToStrideString : LocationType → String) (globalsMapEmpty : Bool)
    (stage : Stage) : List KernelParam :=
  let fields := stage.fields
  let chains := stageChains stage
  let args : List KernelParam := []
  let args := if !globalsMapEmpty then args ++ [KernelParam.globals] else args
  let loc := stage.locationType
  let args := args ++ [KernelParam.denseSize (locToStrideString loc)]
  let args := (locArgs locToStrideString loc fields).foldl
    (fun args arg => args ++ [KernelParam.denseSize arg]) args
  let args := args ++ [KernelParam.kSize]
  let args := if stage.unstructuredIterationSpace.isSome then args ++ [KernelParam.hOffset]
    else args
  let args := args ++ [KernelParam.hSize]
  let args := chains.foldl (fun args chain => args ++ [KernelParam.table chain]) args
  fields.foldl (fun args fieldPair =>
    args ++ [KernelParam.field (decide (fieldPair.intend = IntendKind.Input))
      fieldPair.accessID]) args

/-- The template argument list of the kernel call (`<..., ...>`), one entry per chain. -/
def kernelCallTemplateArgs (stage : Stage) : List UnstructuredIterationSpace :=
  let chains := stageChains stage
  if chains.length ≠ 0 then chains.foldl (fun ss chain => ss ++ [chain]) [] else []

/-- The argument list of the kernel call emitted by `generateRunFun` for a stage. -/
def kernelCallArgs (locToStrideString : LocationType → String) (globalsMapEmpty : Bool)
    (stage : Stage) : List CallArg :=
  let fields := stage.fields
  let domain := stage.unstructuredIterationSpace
  let chains := stageChains stage
  let kernelCall : List CallArg := []
  let kernelCall := if !globalsMapEmpty then kernelCall ++ [CallArg.m_globals] else kernelCall
  let kernelCall := kernelCall ++ [CallArg.meshStride (locToStrideString stage.locationType)]
  let kernelCall := (locArgs locToStrideString stage.locationType fields).foldl
    (fun kernelCall arg => kernelCall ++ [CallArg.meshStride arg]) kernelCall
  let kernelCall := kernelCall ++ [CallArg.kSize_]
  let kernelCall := if domain.isSome then kernelCall ++ [CallArg.hoffset stage.stageID]
    else kernelCall
  let kernelCall := kernelCall ++ [CallArg.hsize stage.stageID]
  let kernelCall := chains.foldl
    (fun kernelCall chain => kernelCall ++ [CallArg.meshTable chain]) kernelCall
  fields.foldl (fun kernelCall fieldPair =>
    kernelCall ++ [CallArg.fieldMember fieldPair.accessID]) kernelCall

/-! ## Stencil fields and the verify function (`generateAllAPIVerifyFunctions`) -/

/-- The part of `iir::Stencil::FieldInfo` the generator reads. -/
structure FieldInfo where
  Name : String
  field : Field
  deriving DecidableEq, Repr

/-- The part of `iir::Stencil` and its metadata the generator reads: the API fields
(`getMetadata().getAPIFields()`), the map of `getOrderedFields()` as its list of entries,
and the temporaries (`getAccessesOfType<InterStencilTemporary, StencilTemporary>()`) with
their dimensions. -/
structure Stencil where
  APIFields : List Int
  orderedFields : List (Int × FieldInfo)
  temporaries : List (Int × FieldDimensions)

/-- Map lookup `stenFields.at(fieldID)`, `none` when `stenFields.count(fieldID)` is 0. -/
def Stencil.fieldInfoAt (stencil : Stencil) (fieldID : Int) : Option FieldInfo :=
  (stencil.orderedFields.find? (fun entry => entry.1 = fieldID)).map (fun entry => entry.2)

/-- Function `getUsedFields(stencil, intend)`: the API fields that the stencil uses and
whose intent is in `intend`, in API order. -/
def getUsedFields (stencil : Stencil) (intend : List IntendKind) : List Int :=
  let usedAPIFields := stencil.APIFields.filter (fun f => (stencil.fieldInfoAt f).isSome)
  usedAPIFields.foldl (fun res fieldID =>
    match stencil.fieldInfoAt fieldID with
    | some field => if field.field.intend ∈ intend then res ++ [fieldID] else res
    | none => res) []

/-- The fields for which `generateAllAPIVerifyFunctions` emits a comparison block, in
order; `none` when the assertion `vertical fields can not be output fields` fails. -/
def verifyFields (stencil : Stencil) : Option (List FieldInfo) :=
  (getUsedFields stencil [IntendKind.Output, IntendKind.InputOutput]).foldl
    (fun acc fieldID =>
      match acc, stencil.fieldInfoAt fieldID with
      | some blocks, some fieldInfo =>
        if fieldInfo.field.dimensions.isVertical then none else some (blocks ++ [fieldInfo])
      | _, _ => none) (some [])

/-- The body emitted for `verify_N`: `bool isValid;`, then for every field
`isValid = ::dawn::verify_field(...)` followed by the serialisation block guarded by
`if (!isValid)`, and at the end `return isValid`. The outcome of the call of
`verify_field` for a field is a parameter; `none` is the indeterminate value of the
uninitialised `isValid`. -/
def verifyAPI (fields : List FieldInfo) (verify_field : FieldInfo → Bool) : Option Bool :=
  fields.foldl (fun _ fieldInfo => some (verify_field fieldInfo)) none

/-! ## The interval check (`intervalsConsistent`) -/

/-- Function `intervalsConsistent(stage)`: the intervals of the DoMethods are inserted into
an unordered set; the lower levels and the upper levels of all of them are compared with
those of `intervals.begin()`. -/
def intervalsConsistent (stage : Stage) : Bool :=
  let intervals := stage.doMethods.foldl
    (fun intervals doMethod => unorderedSetInsert intervals doMethod.interval) []
  match intervals with
  | [] => true
  | begin :: _ =>
    let consistentLo := intervals.all (fun interval => begin.lowerLevel == interval.lowerLevel)
    let consistentHi := intervals.all (fun interval => begin.upperLevel == interval.upperLevel)
    consistentHi && consistentLo

/-- The interval from which `generateAllCudaKernels` emits `klo`, `khi` and the guard of a
stage: after the assertion `intervalsConsistent(*stage)`, the interval of
`stage->getChild(0)`. `none` when generation aborts. -/
def stageKernelInterval (stage : Stage) : Option Interval :=
  if intervalsConsistent stage then stage.doMethods.head?.map (fun d => d.interval) else none

/-! ## Device mesh -/

/-- The enumeration `dawn::UnstructuredSubdomain`. -/
inductive UnstructuredSubdomain
  | LateralBoundary
  | Nudging
  | Interior
  | Halo
  | End
  deriving DecidableEq, Repr

/-- The struct `GpuTriMesh` emitted by `generateGpuMesh`, with the horizontal domain as the
function that answers a query (kind, tag, offset) and the table members as a function of
the iteration space. -/
structure GpuTriMesh where
  NumVertices : Nat
  NumEdges : Nat
  NumCells : Nat
  VertexStride : Nat
  EdgeStride : Nat
  CellStride : Nat
  HorizontalDomain : LocationType → UnstructuredSubdomain → Int → Int
  tables : UnstructuredIterationSpace → List Int

/-- The member `mesh_.<locToStrideString(loc)>`. -/
def GpuTriMesh.stride (mesh : GpuTriMesh) : LocationType → Nat
  | .Cells => mesh.CellStride
  | .Edges => mesh.EdgeStride
  | .Vertices => mesh.VertexStride

/-- The member `mesh_.Num<locToStringPlural(loc)>`. -/
def GpuTriMesh.numElements (mesh : GpuTriMesh) : LocationType → Nat
  | .Cells => mesh.NumCells
  | .Edges => mesh.NumEdges
  | .Vertices => mesh.NumVertices

/-! ## Copy in and copy out (cuda_utils.hpp, `generateCopyMemoryFun`, `generateCopyBackFun`) -/

/-- A freshly allocated buffer of `n` elements (`new[]`, `cudaMalloc`); its contents are
unspecified and are taken to be `default`. -/
def allocBuffer {α : Type} [Inhabited α] (n : Nat) : List α :=
  List.replicate n default

namespace Vertical

end Vertical

namespace Dense

end Dense

/-- The lambda `spaceMagicNumToEnum` of `generateRunFun`; `throw std::runtime_error` is the
error result. -/
def spaceMagicNumToEnum (magicNum : Int) : Except String UnstructuredSubdomain :=
  if magicNum = 0 then Except.ok UnstructuredSubdomain.LateralBoundary
  else if magicNum = 1000 then Except.ok UnstructuredSubdomain.Nudging
  else if magicNum = 2000 then Except.ok UnstructuredSubdomain.Interior
  else if magicNum = 3000 then Except.ok UnstructuredSubdomain.Halo
  else if magicNum = 4000 then Except.ok UnstructuredSubdomain.End
  else Except.error "Invalid magic number"

/-- An emitted expression over the device mesh: `0`, `mesh_.Num<Kind>`,
`mesh_.HorizontalDomain({kind, tag, offset})`, or a difference. -/
inductive HExpr
  | zero
  | numElements (loc : LocationType)
  | horizontalDomain (loc : LocationType) (space : UnstructuredSubdomain) (offset : Int)
  | sub (a b : HExpr)
  deriving DecidableEq, Repr

/-- Value of an emitted mesh expression. -/
def HExpr.eval (mesh_ : GpuTriMesh) : HExpr → Int
  | .zero => 0
  | .numElements loc => (mesh_.numElements loc : Int)
  | .horizontalDomain loc space offset => mesh_.HorizontalDomain loc space offset
  | .sub a b => a.eval mesh_ - b.eval mesh_

/-- The lambda `numElementsString` of `generateRunFun`. -/
def numElementsString (loc : LocationType) (iterSpace : Option Interval) :
    Except String HExpr :=
  match iterSpace with
  | some iterSpace =>
    match spaceMagicNumToEnum iterSpace.upperLevel, spaceMagicNumToEnum iterSpace.lowerLevel with
    | Except.ok upper, Except.ok lower =>
      Except.ok (HExpr.sub (HExpr.horizontalDomain loc upper iterSpace.upperOffset)
        (HExpr.horizontalDomain loc lower iterSpace.lowerOffset))
    | Except.error e, _ => Except.error e
    | _, Except.error e => Except.error e
  | none => Except.ok (HExpr.numElements loc)

/-- The lambda `hOffsetSizeString` of `generateRunFun`. -/
def hOffsetSizeString (loc : LocationType) (iterSpace : Interval) : Except String HExpr :=
  match spaceMagicNumToEnum iterSpace.lowerLevel with
  | Except.ok lower => Except.ok (HExpr.horizontalDomain loc lower iterSpace.lowerOffset)
  | Except.error e => Except.error e

/-- The expression `k_size` that `generateRunFun` passes to `grid` for an interval. -/
def runKSize (interval : Interval) : CExpr :=
  if interval.levelIsEnd Bound.upper && interval.levelIsEnd Bound.lower then
    CExpr.lit (interval.upperOffset - interval.lowerOffset)
  else if interval.levelIsEnd Bound.upper then
    CExpr.sub (CExpr.add (CExpr.var KVar.kSize) (CExpr.lit interval.upperOffset))
      (CExpr.lit (interval.lowerOffset + interval.lowerLevel))
  else
    CExpr.sub (CExpr.add (CExpr.lit interval.upperLevel) (CExpr.lit interval.upperOffset))
      (CExpr.lit (interval.lowerOffset + interval.lowerLevel))

/-- What `generateRunFun` emits for one stage: the initialisers of `hoffset<ID>` and
`hsize<ID>`, and inside `if (hsize<ID> != 0)` the grid computation and the kernel call. -/
structure StageLaunch where
  stageID : Int
  hOffset : HExpr
  hSize : HExpr
  k_size : CExpr
  iskparallel : Bool
  templateArgs : List UnstructuredIterationSpace
  args : List CallArg

/-- The part of `iir::MultiStage` the generator reads. -/
structure MultiStage where
  loopOrder : LoopOrderKind
  stages : List Stage

/-- The body of the stage loop of `generateRunFun` for one stage; an error when the
assertion on the intervals fails, the stage has no DoMethod, or a sub-domain code is
invalid. -/
def generateRunStage (locToStrideString : LocationType → String) (globalsMapEmpty : Bool)
    (ms : MultiStage) (stage : Stage) : Except String StageLaunch :=
  if !intervalsConsistent stage then
    Except.error "intervals in a stage must have same Levels for now!"
  else
    match stage.doMethods.head? with
    | none => Except.error "stage without DoMethod"
    | some child0 =>
      let interval := child0.interval
      let k_size := runKSize interval
      let iskparallel := decide (ms.loopOrder = LoopOrderKind.Parallel)
      let domain := stage.unstructuredIterationSpace
      let hOffset : Except String HExpr :=
        match domain with
        | some d => hOffsetSizeString stage.locationType d
        | none => Except.ok HExpr.zero
      match hOffset, numElementsString stage.locationType domain with
      | Except.ok hOffset, Except.ok hSize =>
        Except.ok ⟨stage.stageID, hOffset, hSize, k_size, iskparallel,
          kernelCallTemplateArgs stage,
          kernelCallArgs locToStrideString globalsMapEmpty stage⟩
      | Except.error e, _ => Except.error e
      | _, Except.error e => Except.error e

/-- The stage loops of `generateRunFun` over all multistages, in program order. -/
def generateRunFun (locToStrideString : LocationType → String) (globalsMapEmpty : Bool)
    (iir : List MultiStage) : Except String (List StageLaunch) :=
  iir.foldl (fun acc ms =>
    ms.stages.foldl (fun acc stage =>
      match acc, generateRunStage locToStrideString globalsMapEmpty ms stage with
      | Except.ok launches, Except.ok launch => Except.ok (launches ++ [launch])
      | Except.error e, _ => Except.error e
      | _, Except.error e => Except.error e) acc) (Except.ok [])

/-- The static and per-object members of the emitted stencil class: the flag, the vertical
size, the mesh, the stream, the per-field vertical sizes and the device storage of every
field (by access ID). -/
structure StencilState (α : Type) where
  is_setup_ : Bool
  kSize_ : Nat
  mesh_ : GpuTriMesh
  stream_ : Nat
  fieldKSize_ : Int → Int
  fields : Int → List α

/-- What a call of `run` does that is visible outside the stencil state. -/
inductive RunEvent
  | printf (message : String)
  | kernelLaunch (stageID : Int) (dG : dim3) (stream : Nat) (hOffset hSize : Int)
  deriving DecidableEq, Repr

/-- The emitted `run()`. With the flag unset it prints the diagnostic and returns;
otherwise, stage by stage, it computes `hoffset` and `hsize` and, when `hsize` is not 0,
the grid, and launches the kernel. The effect of a kernel on the device storage is a
parameter. -/
def run {α : Type} (stencilName : String) (BLOCK_SIZE LEVELS_PER_THREAD : Int)
    (launches : List StageLaunch)
    (kernel : StageLaunch → dim3 → Int → Int → (Int → List α) → (Int → List α))
    (s : StencilState α) : StencilState α × List RunEvent :=
  if !s.is_setup_ then
    (s, [RunEvent.printf
      (stencilName ++ " has not been set up! make sure setup() is called before run!\n")])
  else
    launches.foldl (fun acc launch =>
      let s := acc.1
      let hoffset := launch.hOffset.eval s.mesh_
      let hsize := launch.hSize.eval s.mesh_
      if hsize ≠ 0 then
        let dG := grid BLOCK_SIZE LEVELS_PER_THREAD
          (launch.k_size.eval (kernelEnv s.kSize_ 0 LEVELS_PER_THREAD)) hsize
          launch.iskparallel
        ({ s with fields := kernel launch dG hoffset hsize s.fields },
          acc.2 ++ [RunEvent.kernelLaunch launch.stageID dG s.stream_ hoffset hsize])
      else acc) (s, [])

/-- The state the static member definitions of `generateStaticMembersTrailer` give before
any call: `is_setup_ = false`, everything else zero-initialised. -/
def initialState {α : Type} : StencilState α :=
  { is_setup_ := false
    kSize_ := 0
    mesh_ := ⟨0, 0, 0, 0, 0, 0, fun _ _ _ => 0, fun _ => []⟩
    stream_ := 0
    fieldKSize_ := fun _ => 0
    fields := fun _ => [] }

/-- The statements of `allocTempFields`: every temporary gets fresh storage of the size of
its dimensions. -/
def allocTempFields {α : Type} [Inhabited α] (ICOChainSize : UnstructuredIterationSpace → Nat)
    (stencil : Stencil) (mesh_ : GpuTriMesh) (kSize_ : Nat) (fields : Int → List α) :
    Int → List α :=
  stencil.temporaries.foldl (fun fields temporary =>
    match temporary.2 with
    | .vertical => Function.update fields temporary.1 (allocBuffer kSize_)
    | .horizontal hdims K =>
      let isHorizontal := !K
      let kSizeStr := if isHorizontal then 1 else kSize_
      if hdims.isDense then
        Function.update fields temporary.1
          (allocBuffer (mesh_.stride hdims.getDenseLocationType * kSizeStr))
      else
        Function.update fields temporary.1
          (allocBuffer (mesh_.stride hdims.getDenseLocationType
            * sparseSize ICOChainSize hdims.getIterSpace * kSizeStr))) fields

/-- The emitted `setup(mesh, kSize, stream, <field>_kSize...)`, with the device mesh
already constructed from the global mesh. -/
def setup {α : Type} [Inhabited α] (ICOChainSize : UnstructuredIterationSpace → Nat)
    (stencil : Stencil) (mesh : GpuTriMesh) (kSize : Nat) (stream : Nat)
    (fieldKSize : Int → Int) (s : StencilState α) : StencilState α :=
  { is_setup_ := true
    kSize_ := kSize
    mesh_ := mesh
    stream_ := stream
    fieldKSize_ := fun fieldID =>
      if fieldID ∈ getUsedFields stencil [IntendKind.Output, IntendKind.InputOutput] then
        fieldKSize fieldID
      else s.fieldKSize_ fieldID
    fields := allocTempFields ICOChainSize stencil mesh kSize s.fields }

/-- The emitted `free()`: `cudaFree` of the storage of every temporary; released storage
holds nothing. -/
def free {α : Type} (stencil : Stencil) (s : StencilState α) : StencilState α :=
  { s with fields := (stencil.temporaries.foldl
      (fun fields temporary => Function.update fields temporary.1 []) s.fields) }

/-! ## Iteration spaces of a tree and of an instantiation (`generateGpuMesh`) -/

mutual
/-- The iteration spaces carried by the neighbour reductions and the neighbour loops that
occur in a tree at any nesting depth, one entry per occurrence. -/
def ASTNode.iterSpaces : ASTNode → List UnstructuredIterationSpace
  | .ReductionOverNeighborExpr iterSpace children =>
    iterSpace :: ASTNode.iterSpacesOfList children
  | .LoopStmt iterSpace children => iterSpace :: ASTNode.iterSpacesOfList children
  | .other children => ASTNode.iterSpacesOfList children
/-- The iteration spaces that occur in a list of trees. -/
def ASTNode.iterSpacesOfList : List ASTNode → List UnstructuredIterationSpace
  | [] => []
  | c :: cs => ASTNode.iterSpaces c ++ ASTNode.iterSpacesOfList cs
end

/-- The range `iterateIIROver<iir::DoMethod>(IIR)`: the DoMethods of all stages of all
multistages, in program order. -/
def allDoMethods (iir : List MultiStage) : List DoMethod :=
  iir.flatMap (fun ms => ms.stages.flatMap (fun stage => stage.doMethods))

/-- The set `spaces` of `generateGpuMesh`: one collector visits every DoMethod of the
instantiation, and after each visit all of `spaceCollector.getSpaces()` is inserted into
`spaces`. -/
def gpuMeshSpaces (iir : List MultiStage) : List UnstructuredIterationSpace :=
  ((allDoMethods iir).foldl
    (fun (acc : List UnstructuredIterationSpace × List UnstructuredIterationSpace) doMethod =>
      let spaces_ := CollectIterationSpaces.visitChildren acc.1 doMethod.ast
      (spaces_, spaces_.foldl unorderedSetInsert acc.2)) ([], [])).2

/-- The table part of the struct `GpuTriMesh` emitted by `generateGpuMesh`: the `int*`
members, and the tables the constructor from the global mesh assigns from
`mesh->NeighborTables.at(...)`. -/
structure GpuMeshTables where
  members : List UnstructuredIterationSpace
  fromGlobalCtor : List UnstructuredIterationSpace

/-- Function `generateGpuMesh`, table part: one member and one constructor statement per
element of `spaces`. -/
def generateGpuMesh (iir : List MultiStage) : GpuMeshTables :=
  let spaces := gpuMeshSpaces iir
  ⟨spaces.foldl (fun members space => members ++ [space]) [],
    spaces.foldl (fun statements space => statements ++ [space]) []⟩

/-! ## The horizontal thread index (`generateAllCudaKernels`) -/

/-- The horizontal part of an emitted kernel for the thread `(blockIdx.x, threadIdx.x)`:
`pidx = blockIdx.x * blockDim.x + threadIdx.x`, `if (pidx >= hSize) return`, and, for a
stage with a sub-domain, `pidx += hOffset`. `pidx` is an `unsigned int`: its arithmetic is
modulo `2 ^ 32`, and the `int` values `hSize` and `hOffset` are converted to `unsigned int`
where they meet it. The result is the element index the body runs on, `none` for a thread
that returns. -/
def kernelElement (hasDomain : Bool) (hOffset hSize : Int)
    (blockDimX blockIdxX threadIdxX : Nat) : Option Nat :=
  let pidx : Nat := (blockIdxX * blockDimX + threadIdxX) % 2 ^ 32
  if pidx ≥ toUnsigned hSize then none
  else
    let pidx := if hasDomain then toUnsigned ((pidx : Int) + hOffset) else pidx
    some pidx

/-! ## The accesses to `stencils[0]` -/

/-- How a generator step can end without producing code. -/
inductive GenFailure
  | assertion
  | outOfBounds
  deriving DecidableEq, Repr

/-- The access `stencils[0]`; outside the bounds of the vector it is undefined in C++ and
is reported here as `outOfBounds`. -/
def stencilAt0 {σ : Type} (stencils : List σ) : Except GenFailure σ :=
  match stencils[0]? with
  | some stencil => Except.ok stencil
  | none => Except.error GenFailure.outOfBounds

/-- The stencil for which `generateAllAPIRunFunctions` writes the bodies: after the
assertion `stencils.size() <= 1`, `none` (a bare `return`) when `stencils.empty()`, else
`stencils[0]`. -/
def generateAllAPIRunFunctions_stencil {σ : Type} (stencils : List σ) :
    Except GenFailure (Option σ) :=
  if stencils.length ≤ 1 then
    if stencils.isEmpty then Except.ok none
    else
      match stencilAt0 stencils with
      | Except.ok stencil => Except.ok (some stencil)
      | Except.error e => Except.error e
  else Except.error GenFailure.assertion

/-- The stencil read by `generateAllAPIVerifyFunctions`: the assertion
`stencils.size() <= 1`, then `*stencils[0]`. -/
def generateAllAPIVerifyFunctions_stencil {σ : Type} (stencils : List σ) :
    Except GenFailure σ :=
  if stencils.length ≤ 1 then stencilAt0 stencils else Except.error GenFailure.assertion

/-- The stencil read by `generateMemMgmtFunctions`: `getStencils()[0]` for the stencil
name, then the assertion `stencils.size() <= 1`, then `*stencils[0]`. -/
def generateMemMgmtFunctions_stencil {σ : Type} (stencils : List σ) : Except GenFailure σ :=
  match stencilAt0 stencils with
  | Except.error e => Except.error e
  | Except.ok _ =>
    if stencils.length ≤ 1 then stencilAt0 stencils else Except.error GenFailure.assertion

/-- The stencil read by `generateStaticMembersTrailer`: the assertion
`constStencils.size() <= 1`, then `*constStencils[0]` and `getStencils()[0]`. -/
def generateStaticMembersTrailer_stencil {σ : Type} (stencils : List σ) :
    Except GenFailure σ :=
  if stencils.length ≤ 1 then
    match stencilAt0 stencils with
    | Except.error e => Except.error e
    | Except.ok _ => stencilAt0 stencils
  else Except.error GenFailure.assertion

/-- The calls of `generateStencilInstantiation` that read the stencil list, in order:
`generateAllAPIRunFunctions` twice (from host and not), `generateAllAPIVerifyFunctions`,
`generateMemMgmtFunctions` and `generateStaticMembersTrailer`; the first failure ends the
generation. -/
def generateStencilInstantiation_stencils {σ : Type} (stencils : List σ) :
    Except GenFailure Unit :=
  match generateAllAPIRunFunctions_stencil stencils with
  | Except.error e => Except.error e
  | Except.ok _ =>
    match generateAllAPIRunFunctions_stencil stencils with
    | Except.error e => Except.error e
    | Except.ok _ =>
      match generateAllAPIVerifyFunctions_stencil stencils with
      | Except.error e => Except.error e
      | Except.ok _ =>
        match generateMemMgmtFunctions_stencil stencils with
        | Except.error e => Except.error e
        | Except.ok _ =>
          match generateStaticMembersTrailer_stencil stencils with
          | Except.error e => Except.error e
          | Except.ok _ => Except.ok ()

/-! ## Loops of stores -/

section Stores

variable {α ι κ : Type}

/-- A loop nest is a single loop over the pairs of indices, in lexicographic order. -/
theorem foldl_loop_nest {σ : Type} (F : σ → ι → κ → σ) (L1 : List ι) (L2 : List κ) (init : σ) :
    L1.foldl (fun s a => L2.foldl (fun s b => F s a b) s) init
      = (L1.flatMap fun a => L2.map (Prod.mk a)).foldl (fun s p => F s p.1 p.2) init := by
  induction L1 generalizing init with
  | nil => rfl
  | cons a L1 ih =>
    simp only [List.foldl_cons, List.flatMap_cons, List.foldl_append, List.foldl_map]
    exact ih _

theorem mem_loop_nest (L1 : List ι) (L2 : List κ) (p : ι × κ) :
    p ∈ (L1.flatMap fun a => L2.map (Prod.mk a)) ↔ p.1 ∈ L1 ∧ p.2 ∈ L2 := by
  obtain ⟨a, b⟩ := p
  simp only [List.mem_flatMap, List.mem_map, Prod.mk.injEq]
  constructor
  · rintro ⟨a', ha', b', hb', rfl, rfl⟩
    exact ⟨ha', hb'⟩
  · rintro ⟨ha, hb⟩
    exact ⟨a, ha, b, hb, rfl, rfl⟩

/-- A loop of stores keeps the length of the buffer. -/
theorem length_stores (f : ι → Nat) (g : ι → α) (L : List ι) (out : List α) :
    (L.foldl (fun o x => o.set (f x) (g x)) out).length = out.length := by
  induction L generalizing out with
  | nil => rfl
  | cons x L ih => simp only [List.foldl_cons, ih, List.length_set]

/-- A loop of stores leaves every cell it does not address unchanged. -/
theorem stores_frame (f : ι → Nat) (g : ι → α) (L : List ι) (out : List α) (i : Nat)
    (hi : ∀ x ∈ L, f x ≠ i) :
    (L.foldl (fun o x => o.set (f x) (g x)) out)[i]? = out[i]? := by
  induction L generalizing out with
  | nil => rfl
  | cons x L ih =>
    simp only [List.foldl_cons]
    rw [ih _ (fun y hy => hi y (List.mem_cons_of_mem _ hy))]
    exact List.getElem?_set_ne (hi x (List.mem_cons_self _ _))

/-- A loop of stores in which all stores to the cell of `x` carry the value of `x` leaves
that value in the cell. -/
theorem stores_hit (f : ι → Nat) (g : ι → α) (L : List ι) (out : List α) (x : ι)
    (hx : x ∈ L) (hlt : f x < out.length) (huniq : ∀ y ∈ L, f y = f x → g y = g x) :
    (L.foldl (fun o y => o.set (f y) (g y)) out)[f x]? = some (g x) := by
  induction L generalizing out x with
  | nil => cases hx
  | cons y L ih =>
    simp only [List.foldl_cons]
    by_cases hex : ∃ z ∈ L, f z = f x
    · obtain ⟨z, hz, hfz⟩ := hex
      have hgz : g z = g x := huniq z (List.mem_cons_of_mem _ hz) hfz
      have hlen : f z < (out.set (f y) (g y)).length := by
        rw [List.length_set, hfz]; exact hlt
      have := ih (out.set (f y) (g y)) z hz hlen (fun w hw hfw => by
        rw [hgz]
        exact huniq w (List.mem_cons_of_mem _ hw) (hfw.trans hfz))
      rw [← hfz, this, hgz]
    · have hnot : ∀ z ∈ L, f z ≠ f x := fun z hz hfz => hex ⟨z, hz, hfz⟩
      rw [stores_frame f g L _ (f x) hnot]
      have hxy : x = y ∨ x ∈ L := List.mem_cons.mp hx
      cases hxy with
      | inl h =>
        subst h
        rw [List.getElem?_set_self hlt]
      | inr h => exact absurd rfl (hnot x h)

/-- A loop nest of stores in which all stores to the cell of `(a, b)` carry the same value
leaves that value in the cell. -/
theorem nest_hit (dst : ι → κ → Nat) (val : ι → κ → α) (L1 : List ι) (L2 : List κ)
    (out : List α) (a : ι) (b : κ) (ha : a ∈ L1) (hb : b ∈ L2) (hlt : dst a b < out.length)
    (huniq : ∀ a' ∈ L1, ∀ b' ∈ L2, dst a' b' = dst a b → val a' b' = val a b) :
    (L1.foldl (fun o a => L2.foldl (fun o b => o.set (dst a b) (val a b)) o) out)[dst a b]?
      = some (val a b) := by
  rw [foldl_loop_nest (fun (o : List α) (a : ι) (b : κ) => o.set (dst a b) (val a b)) L1 L2 out]
  exact stores_hit (fun (p : ι × κ) => dst p.1 p.2) (fun (p : ι × κ) => val p.1 p.2) _ out (a, b)
    ((mem_loop_nest L1 L2 (a, b)).mpr ⟨ha, hb⟩) hlt
    (fun p hp => huniq p.1 ((mem_loop_nest L1 L2 p).mp hp).1 p.2 ((mem_loop_nest L1 L2 p).mp hp).2)

theorem nest_length (dst : ι → κ → Nat) (val : ι → κ → α) (L1 : List ι) (L2 : List κ)
    (out : List α) :
    (L1.foldl (fun o a => L2.foldl (fun o b => o.set (dst a b) (val a b)) o) out).length
      = out.length := by
  rw [foldl_loop_nest (fun (o : List α) (a : ι) (b : κ) => o.set (dst a b) (val a b)) L1 L2 out]
  exact length_stores (fun (p : ι × κ) => dst p.1 p.2) (fun (p : ι × κ) => val p.1 p.2) _ out

end Stores

/-! ## Arithmetic of row-major indices -/

/-- Row-major index `a * n + e` with `e < n` determines `a` and `e`. -/
theorem rowMajor_inj {n a e a' e' : Nat} (he : e < n) (he' : e' < n)
    (h : a * n + e = a' * n + e') : a = a' ∧ e = e' := by
  rcases Nat.lt_trichotomy a a' with hlt | heq | hgt
  · have := Nat.mul_le_mul_right n (Nat.succ_le_of_lt hlt)
    rw [Nat.succ_mul] at this
    omega
  · subst heq
    omega
  · have := Nat.mul_le_mul_right n (Nat.succ_le_of_lt hgt)
    rw [Nat.succ_mul] at this
    omega

/-- Row-major index `a * n + e` of a position inside an `A × n` array is inside the array. -/
theorem rowMajor_lt {A n a e : Nat} (ha : a < A) (he : e < n) : a * n + e < A * n := by
  have := Nat.mul_le_mul_right n (Nat.succ_le_of_lt ha)
  rw [Nat.succ_mul] at this
  omega

/-- Every index inside an `A × n` array is a row-major index. -/
theorem rowMajor_decomp {A n j : Nat} (h : j < A * n) :
    ∃ a e, a < A ∧ e < n ∧ j = a * n + e := by
  have hn : 0 < n := by
    rcases Nat.eq_zero_or_pos n with h0 | h0
    · subst h0; simp at h
    · exact h0
  refine ⟨j / n, j % n, ?_, Nat.mod_lt _ hn, ?_⟩
  · exact Nat.div_lt_of_lt_mul (by rw [Nat.mul_comm]; exact h)
  · have := Nat.div_add_mod j n
    rw [Nat.mul_comm] at this
    exact this.symm


/-! ## What `reshape` and `reshape_back` leave in each cell -/

section Layout

variable {α : Type} [Inhabited α]

end Layout


/-! ## The neighbour table, cell by cell -/

section NbhTable

/-- A loop of `push_back` appends the pushed values in order. -/
theorem foldl_push {β ι : Type} (h : ι → β) (L : List ι) (init : List β) :
    L.foldl (fun acc x => acc ++ [h x]) init = init ++ L.map h := by
  induction L generalizing init with
  | nil => simp
  | cons x L ih => simp [ih]

/-- A loop that appends one block per element produces the blocks in order. -/
theorem foldl_append_blocks {β ι : Type} (r : ι → List β) (L : List ι) (init : List β) :
    L.foldl (fun acc x => acc ++ r x) init = init ++ L.flatMap r := by
  induction L generalizing init with
  | nil => simp
  | cons x L ih => simp [ih]

theorem length_flatMap_uniform {β ι : Type} (r : ι → List β) (c : Nat) (L : List ι)
    (hr : ∀ x ∈ L, (r x).length = c) : (L.flatMap r).length = L.length * c := by
  induction L with
  | nil => simp
  | cons x L ih =>
    rw [List.flatMap_cons, List.length_append, hr x (List.mem_cons_self _ _),
      ih (fun y hy => hr y (List.mem_cons_of_mem _ hy)), List.length_cons, Nat.succ_mul]
    omega

/-- In a concatenation of blocks of equal length `c`, cell `i * c + j` is cell `j` of
block `i`. -/
theorem getElem?_flatMap_uniform {β ι : Type} (r : ι → List β) (c : Nat) (L : List ι)
    (hr : ∀ x ∈ L, (r x).length = c) (i j : Nat) (x : ι) (hx : L[i]? = some x) (hj : j < c) :
    (L.flatMap r)[i * c + j]? = (r x)[j]? := by
  induction L generalizing i with
  | nil => simp at hx
  | cons y L ih =>
    have hy : (r y).length = c := hr y (List.mem_cons_self _ _)
    rw [List.flatMap_cons]
    cases i with
    | zero =>
      simp only [List.getElem?_cons_zero, Option.some.injEq] at hx
      subst hx
      rw [Nat.zero_mul, Nat.zero_add, List.getElem?_append_left (by rw [hy]; exact hj)]
    | succ i =>
      simp only [List.getElem?_cons_succ] at hx
      have hle : (r y).length ≤ (i + 1) * c + j := by
        rw [hy, Nat.succ_mul]; omega
      rw [List.getElem?_append_right hle]
      have hidx : (i + 1) * c + j - (r y).length = i * c + j := by
        rw [hy, Nat.succ_mul]; omega
      rw [hidx]
      exact ih (fun z hz => hr z (List.mem_cons_of_mem _ hz)) i hx

theorem nbhRow_length (neighbors : List Int) (cap : Nat) : (nbhRow neighbors cap).length = cap := by
  simp [nbhRow]

theorem nbhRow_get (neighbors : List Int) (cap j : Nat) (hj : j < cap) :
    (nbhRow neighbors cap)[j]? = some (neighbors[j]?.getD DEVICE_MISSING_VALUE) := by
  simp [nbhRow, List.getElem?_range hj]

/-- The element-major table is the concatenation of the rows of the elements. -/
theorem nbhHostTable_eq (mesh : Mesh) (chain : List LocationType) (elems : List Int)
    (cap : Nat) (includeCenter : Bool) :
    nbhHostTable mesh chain elems cap includeCenter
      = elems.flatMap (fun elem => nbhRow (mesh.getNeighbors chain elem includeCenter) cap) := by
  unfold nbhHostTable
  have hinner : ∀ (neighbors : List Int),
      (fun (hostTable : List Int) (nbhIdx : Nat) =>
        if h : nbhIdx < neighbors.length then hostTable ++ [neighbors[nbhIdx]]
        else hostTable ++ [DEVICE_MISSING_VALUE])
      = (fun hostTable nbhIdx => hostTable ++ [neighbors[nbhIdx]?.getD DEVICE_MISSING_VALUE]) := by
    intro neighbors
    funext hostTable nbhIdx
    by_cases h : nbhIdx < neighbors.length
    · simp [h, List.getElem?_eq_getElem h]
    · simp [h, List.getElem?_eq_none (Nat.le_of_not_lt h)]
  have houter :
      (fun (hostTable : List Int) (elem : Int) =>
        let neighbors := mesh.getNeighbors chain elem includeCenter
        (List.range cap).foldl (fun hostTable nbhIdx =>
          if h : nbhIdx < neighbors.length then hostTable ++ [neighbors[nbhIdx]]
          else hostTable ++ [DEVICE_MISSING_VALUE]) hostTable)
      = (fun hostTable elem =>
        hostTable ++ nbhRow (mesh.getNeighbors chain elem includeCenter) cap) := by
    funext hostTable elem
    simp only [hinner]
    exact foldl_push _ _ _
  rw [houter, foldl_append_blocks]
  simp

theorem nbhHostTable_length (mesh : Mesh) (chain : List LocationType) (elems : List Int)
    (cap : Nat) (includeCenter : Bool) :
    (nbhHostTable mesh chain elems cap includeCenter).length = elems.length * cap := by
  rw [nbhHostTable_eq]
  exact length_flatMap_uniform _ cap elems (fun _ _ => nbhRow_length _ _)

theorem nbhHostTable_get (mesh : Mesh) (chain : List LocationType) (elems : List Int)
    (cap : Nat) (includeCenter : Bool) (i j : Nat) (elem : Int)
    (hi : elems[i]? = some elem) (hj : j < cap) :
    (nbhHostTable mesh chain elems cap includeCenter)[i * cap + j]?
      = some ((mesh.getNeighbors chain elem includeCenter)[j]?.getD DEVICE_MISSING_VALUE) := by
  rw [nbhHostTable_eq,
    getElem?_flatMap_uniform _ cap elems (fun _ _ => nbhRow_length _ _) i j elem hi hj]
  exact nbhRow_get _ _ _ hj

theorem nbhTranspose_length (hostTable : List Int) (n cap : Nat) :
    (nbhTranspose hostTable n cap).length = n * cap := by
  unfold nbhTranspose
  rw [nest_length (fun i j => j * n + i) (fun i j => hostTable.getD (i * cap + j) 0)]
  exact List.length_replicate _ _

theorem nbhTranspose_get (hostTable : List Int) (n cap i j : Nat) (hi : i < n) (hj : j < cap) :
    (nbhTranspose hostTable n cap)[j * n + i]? = some (hostTable.getD (i * cap + j) 0) :=
  nest_hit (fun i j => j * n + i) (fun i j => hostTable.getD (i * cap + j) 0)
    (List.range n) (List.range cap) (List.replicate (n * cap) 0) i j
    (List.mem_range.mpr hi) (List.mem_range.mpr hj)
    (by rw [List.length_replicate, Nat.mul_comm n cap]; exact rowMajor_lt hj hi)
    (fun i' hi' j' _ h => by
      obtain ⟨h1, h2⟩ := rowMajor_inj (List.mem_range.mp hi') hi h
      subst h1 h2; rfl)

/-- With a non-empty chain and the element count of its first kind, both assertions of
`generateNbhTable` hold and the transposed table is produced. -/
theorem generateNbhTable_eq (mesh : Mesh) (chain : List LocationType) (front : LocationType)
    (n cap : Nat) (includeCenter : Bool) (hfront : chain.head? = some front)
    (hcount : (nbhElems mesh front).length = n) :
    generateNbhTable mesh chain n cap includeCenter
      = some (nbhTranspose
          (nbhHostTable mesh chain (nbhElems mesh front) cap includeCenter) n cap) := by
  unfold generateNbhTable
  rw [hfront]
  simp only [hcount, ne_eq, not_true_eq_false, if_false, nbhHostTable_length]

/-- Cell `(slot j, element i)` of the produced table. -/
theorem nbhTable_get (mesh : Mesh) (chain : List LocationType) (front : LocationType)
    (n cap : Nat) (includeCenter : Bool) (hcount : (nbhElems mesh front).length = n)
    (i j : Nat) (elem : Int) (hi : (nbhElems mesh front)[i]? = some elem) (hj : j < cap) :
    (nbhTranspose (nbhHostTable mesh chain (nbhElems mesh front) cap includeCenter) n cap)[
        j * n + i]?
      = some ((mesh.getNeighbors chain elem includeCenter)[j]?.getD DEVICE_MISSING_VALUE) := by
  have hin : i < n := by
    rw [← hcount]
    exact (List.getElem?_eq_some_iff.mp hi).1
  rw [nbhTranspose_get _ _ _ _ _ hin hj, List.getD_eq_getElem?_getD,
    nbhHostTable_get mesh chain _ cap includeCenter i j elem hi hj]
  rfl

end NbhTable

/-! ## Claims on the field layout -/

section ReshapeClaims

variable {α : Type} [Inhabited α]

end ReshapeClaims


/-! ## Claims on the neighbour tables -/

section NbhClaims

/-- Value of the capacity constant the generator emits for an iteration space. -/
theorem sparseSize_eq (ICOChainSize : UnstructuredIterationSpace → Nat)
    (space : UnstructuredIterationSpace) :
    sparseSize ICOChainSize space
      = ICOChainSize space + (if space.IncludeCenter then 1 else 0) := by
  unfold sparseSize sparseSizeInit
  cases space.IncludeCenter
  · simp [CExpr.eval]
  · simp only [if_true, CExpr.eval]
    exact Int.toNat_ofNat (ICOChainSize space + 1)

/-- C5 (table length and padding). For every iteration space (with a chain that has a first
kind, whose elements are counted by `numElements`), the capacity constant the generator
emits is `ICOChainSize(space)` plus 1 when `IncludeCenter` is set; `generateNbhTable` called
with that capacity produces a table of exactly
`numElements * (ICOChainSize(space) + (IncludeCenter ? 1 : 0))` entries; and for every
element every slot at or beyond the element's neighbour count holds `-1`. -/
theorem nbhTable_length_and_padding (ICOChainSize : UnstructuredIterationSpace → Nat)
    (mesh : Mesh) (space : UnstructuredIterationSpace) (front : LocationType)
    (numElements : Nat) (hfront : space.Chain.head? = some front)
    (hcount : (nbhElems mesh front).length = numElements) :
    sparseSize ICOChainSize space
        = ICOChainSize space + (if space.IncludeCenter then 1 else 0) ∧
    ∃ table,
      generateNbhTable mesh space.Chain numElements (sparseSize ICOChainSize space)
          space.IncludeCenter = some table ∧
      table.length
        = numElements * (ICOChainSize space + (if space.IncludeCenter then 1 else 0)) ∧
      ∀ (i j : Nat) (elem : Int), (nbhElems mesh front)[i]? = some elem →
        (mesh.getNeighbors space.Chain elem space.IncludeCenter).length ≤ j →
        j < sparseSize ICOChainSize space →
        table[j * numElements + i]? = some (-1) := by
  refine ⟨sparseSize_eq ICOChainSize space, _,
    generateNbhTable_eq mesh space.Chain front numElements _ _ hfront hcount, ?_, ?_⟩
  · rw [nbhTranspose_length, sparseSize_eq]
  · intro i j elem hi hlen hj
    rw [nbhTable_get mesh space.Chain front numElements _ _ hcount i j elem hi hj,
      List.getElem?_eq_none hlen]
    rfl

theorem nbhTable_length_and_padding_witness :
    ∃ table,
      generateNbhTable ⟨[0, 1, 2], [], [], fun _ e _ => if e = 0 then [1, 2] else [0]⟩
          [LocationType.Cells, LocationType.Edges, LocationType.Cells] 3
          (sparseSize (fun _ => 3)
            ⟨[LocationType.Cells, LocationType.Edges, LocationType.Cells], true⟩)
          true = some table ∧
      table.length = 3 * (3 + 1) ∧ table[3 * 3 + 2]? = some (-1) := by
  obtain ⟨_, table, h1, h2, h3⟩ := nbhTable_length_and_padding (fun _ => 3)
    ⟨[0, 1, 2], [], [], fun _ e _ => if e = 0 then [1, 2] else [0]⟩
    ⟨[LocationType.Cells, LocationType.Edges, LocationType.Cells], true⟩
    LocationType.Cells 3 rfl rfl
  exact ⟨table, h1, h2, h3 2 3 2 rfl (by decide) (by decide)⟩

/-- C6 (slot-major table). For every element position `i` (holding element `elem`) and
every slot `j < numNbhPerElement`, `table[j*numElements + i]` equals the element-major
entry `hostTable[i*numNbhPerElement + j]`, which is the `j`-th neighbour of the element when
it exists and `-1` otherwise. -/
theorem nbhTable_slot_major (mesh : Mesh) (chain : List LocationType) (front : LocationType)
    (numElements numNbhPerElement : Nat) (includeCenter : Bool)
    (hfront : chain.head? = some front)
    (hcount : (nbhElems mesh front).length = numElements) :
    ∃ table,
      generateNbhTable mesh chain numElements numNbhPerElement includeCenter = some table ∧
      ∀ (i j : Nat) (elem : Int), (nbhElems mesh front)[i]? = some elem →
        j < numNbhPerElement →
        table[j * numElements + i]?
          = (nbhHostTable mesh chain (nbhElems mesh front) numNbhPerElement includeCenter)[
              i * numNbhPerElement + j]? ∧
        table[j * numElements + i]?
          = some ((mesh.getNeighbors chain elem includeCenter)[j]?.getD (-1)) := by
  refine ⟨_, generateNbhTable_eq mesh chain front numElements _ _ hfront hcount, ?_⟩
  intro i j elem hi hj
  have h := nbhTable_get mesh chain front numElements numNbhPerElement includeCenter
    hcount i j elem hi hj
  refine ⟨?_, h⟩
  rw [h, nbhHostTable_get mesh chain _ numNbhPerElement includeCenter i j elem hi hj]

theorem nbhTable_slot_major_witness :
    ∃ table,
      generateNbhTable ⟨[], [7, 8], [], fun _ e _ => if e = 7 then [4, 5, 6] else [9]⟩
          [LocationType.Edges, LocationType.Cells] 2 2 false = some table ∧
      table[1 * 2 + 1]? = some (([9] : List Int)[1]?.getD (-1)) ∧
      table[1 * 2 + 0]? = some (([4, 5, 6] : List Int)[1]?.getD (-1)) := by
  obtain ⟨table, h1, h2⟩ := nbhTable_slot_major
    ⟨[], [7, 8], [], fun _ e _ => if e = 7 then [4, 5, 6] else [9]⟩
    [LocationType.Edges, LocationType.Cells] LocationType.Edges 2 2 false rfl rfl
  exact ⟨table, h1, (h2 1 1 8 rfl (by decide)).2, (h2 0 1 7 rfl (by decide)).2⟩

/-- C7 (table entries). Every entry of a generated neighbour table is `-1` or a value of
the neighbour list of the element of its column (entry `idx` lies in column
`idx % numElements`); hence if every neighbour index returned by the mesh lies in `[0, M)`,
every table entry lies in `[-1, M-1]`. The table has `numElements * numNbhPerElement`
entries. -/
theorem nbhTable_entries (mesh : Mesh) (chain : List LocationType) (front : LocationType)
    (numElements numNbhPerElement : Nat) (includeCenter : Bool)
    (hfront : chain.head? = some front)
    (hcount : (nbhElems mesh front).length = numElements) :
    ∃ table,
      generateNbhTable mesh chain numElements numNbhPerElement includeCenter = some table ∧
      table.length = numNbhPerElement * numElements ∧
      (∀ (idx : Nat) (v : Int), table[idx]? = some v →
        v = -1 ∨ ∃ elem, (nbhElems mesh front)[idx % numElements]? = some elem ∧
          v ∈ mesh.getNeighbors chain elem includeCenter) ∧
      (∀ M : Nat,
        (∀ elem ∈ nbhElems mesh front, ∀ v ∈ mesh.getNeighbors chain elem includeCenter,
          0 ≤ v ∧ v < (M : Int)) →
        ∀ v ∈ table, -1 ≤ v ∧ v ≤ (M : Int) - 1) := by
  have hlen := nbhTranspose_length
    (nbhHostTable mesh chain (nbhElems mesh front) numNbhPerElement includeCenter)
    numElements numNbhPerElement
  have hentry : ∀ (idx : Nat) (v : Int),
      (nbhTranspose (nbhHostTable mesh chain (nbhElems mesh front) numNbhPerElement
        includeCenter) numElements numNbhPerElement)[idx]? = some v →
      v = -1 ∨ ∃ elem, (nbhElems mesh front)[idx % numElements]? = some elem ∧
        v ∈ mesh.getNeighbors chain elem includeCenter := by
    intro idx v hv
    have hidx : idx < numNbhPerElement * numElements := by
      have := (List.getElem?_eq_some_iff.mp hv).1
      rw [hlen, Nat.mul_comm] at this
      exact this
    obtain ⟨j, i, hj, hi, rfl⟩ := rowMajor_decomp hidx
    have hmod : (j * numElements + i) % numElements = i := by
      rw [Nat.mul_comm, Nat.mul_add_mod, Nat.mod_eq_of_lt hi]
    have hi' : i < (nbhElems mesh front).length := by rw [hcount]; exact hi
    have helem : (nbhElems mesh front)[i]? = some (nbhElems mesh front)[i] :=
      List.getElem?_eq_getElem hi'
    rw [nbhTable_get mesh chain front numElements numNbhPerElement includeCenter hcount
      i j _ helem hj] at hv
    rw [hmod]
    cases hnb : (mesh.getNeighbors chain (nbhElems mesh front)[i] includeCenter)[j]? with
    | none =>
      rw [hnb] at hv
      left
      exact (Option.some.inj hv).symm
    | some w =>
      rw [hnb] at hv
      right
      refine ⟨_, helem, ?_⟩
      have hw : w = v := Option.some.inj hv
      rw [← hw]
      exact List.getElem?_mem hnb
  refine ⟨_, generateNbhTable_eq mesh chain front numElements _ _ hfront hcount, ?_,
    hentry, ?_⟩
  · rw [hlen, Nat.mul_comm]
  · intro M hM v hv
    obtain ⟨idx, hidx⟩ := List.getElem?_of_mem hv
    rcases hentry idx v hidx with h | ⟨elem, helem, hmem⟩
    · subst h
      omega
    · have := hM elem (List.getElem?_mem helem) v hmem
      omega

/-- The scenario of the specification: chain Cell→Edge→Cell with the centre included, on a
mesh of 100 cells with chain capacity 6, gives a table of shape `[7][100]` with all entries
in `[-1, 99]`. (Cell `c` of this mesh has the neighbours `c+1`, `c+2`, `c+99` modulo 100.) -/
theorem nbhTable_entries_witness :
    ∃ table,
      generateNbhTable
          ⟨(List.range 100).map Int.ofNat, [], [],
            fun _ c center =>
              (if center then [c] else []) ++ [(c + 1) % 100, (c + 2) % 100, (c + 99) % 100]⟩
          [LocationType.Cells, LocationType.Edges, LocationType.Cells] 100
          (sparseSize (fun _ => 6)
            ⟨[LocationType.Cells, LocationType.Edges, LocationType.Cells], true⟩)
          true = some table ∧
      table.length = 7 * 100 ∧ ∀ v ∈ table, -1 ≤ v ∧ v ≤ 99 := by
  obtain ⟨table, h1, h2, _, h4⟩ := nbhTable_entries
    ⟨(List.range 100).map Int.ofNat, [], [],
      fun _ c center =>
        (if center then [c] else []) ++ [(c + 1) % 100, (c + 2) % 100, (c + 99) % 100]⟩
    [LocationType.Cells, LocationType.Edges, LocationType.Cells] LocationType.Cells 100
    (sparseSize (fun _ => 6)
      ⟨[LocationType.Cells, LocationType.Edges, LocationType.Cells], true⟩)
    true rfl (by simp [nbhElems])
  refine ⟨table, h1, ?_, ?_⟩
  · rw [h2, sparseSize_eq]
    rfl
  · refine h4 100 ?_
    intro elem helem v hv
    simp only [nbhElems, List.mem_map, List.mem_range] at helem
    obtain ⟨c, hc, rfl⟩ := helem
    simp only [if_true, List.singleton_append, List.mem_cons, List.mem_singleton,
      List.not_mem_nil, or_false] at hv
    have hc' : (Int.ofNat c) = (c : Int) := rfl
    rw [hc'] at hv
    push_cast
    omega

end NbhClaims


/-! ## Claims on the launch grid -/

section GridClaims

/-- C division of `a + b - 1` by `b` is the ceiling of `a / b`, for `a ≥ 0` and `b ≥ 1`. -/
theorem tdiv_ceil (a b : Int) (ha : 0 ≤ a) (hb : 1 ≤ b) :
    Int.tdiv (a + b - 1) b = ⌈(a : ℚ) / (b : ℚ)⌉ := by
  rw [Int.tdiv_eq_ediv (by omega) (by omega)]
  have hb0 : (0 : ℚ) < (b : ℚ) := by exact_mod_cast (show (0 : Int) < b by omega)
  have h1 := Int.ediv_add_emod (a + b - 1) b
  have h2 := Int.emod_nonneg (a + b - 1) (show b ≠ 0 by omega)
  have h3 := Int.emod_lt_of_pos (a + b - 1) (show 0 < b by omega)
  symm
  rw [Int.ceil_eq_iff]
  constructor
  · rw [lt_div_iff₀ hb0]
    have : ((a + b - 1) / b - 1) * b < a := by linarith
    exact_mod_cast this
  · rw [div_le_iff₀ hb0]
    have : a ≤ (a + b - 1) / b * b := by linarith
    exact_mod_cast this

theorem ceil_div_bounds (a b : Int) (ha : 0 ≤ a) (hb : 1 ≤ b) :
    0 ≤ ⌈(a : ℚ) / (b : ℚ)⌉ ∧ ⌈(a : ℚ) / (b : ℚ)⌉ ≤ a := by
  have ha0 : (0 : ℚ) ≤ (a : ℚ) := by exact_mod_cast ha
  have hb1 : (1 : ℚ) ≤ (b : ℚ) := by exact_mod_cast hb
  constructor
  · exact Int.ceil_nonneg (div_nonneg ha0 (by linarith))
  · rw [Int.ceil_le]
    exact div_le_self ha0 hb1

theorem toUnsigned_of_range (v : Int) (h0 : 0 ≤ v) (h1 : v < 2 ^ 32) :
    ((toUnsigned v : Nat) : Int) = v := by
  unfold toUnsigned
  rw [Int.emod_eq_of_lt h0 h1, Int.toNat_of_nonneg h0]

/-- Two 32-bit additions that do not overflow give the mathematical sum. -/
theorem toInt32_sum (a b : Int) (ha : 0 ≤ a) (hb : 1 ≤ b) (hsum : a + b ≤ 2 ^ 31 - 1) :
    toInt32 (toInt32 (a + b) - 1) = a + b - 1 := by
  unfold toInt32
  omega

/-- C8 (launch grid), as it holds: for every `kSize ≥ 0`, `elSize ≥ 0`, `BLOCK_SIZE ≥ 1` and
`LEVELS_PER_THREAD ≥ 1` for which the `int` additions of the emitted function do not
overflow (`elSize + BLOCK_SIZE` is at most `2 ^ 31 - 1`, and so is
`kSize + LEVELS_PER_THREAD` when `kparallel` is true), the emitted
`grid(kSize, elSize, kparallel)` is
`(ceil(elSize/BLOCK_SIZE), ceil(kSize/LEVELS_PER_THREAD), 1)` when `kparallel` is true and
`(ceil(elSize/BLOCK_SIZE), 1, 1)` otherwise. -/
theorem grid_dims (BLOCK_SIZE LEVELS_PER_THREAD kSize elSize : Int) (kparallel : Bool)
    (hk : 0 ≤ kSize) (he : 0 ≤ elSize) (hB : 1 ≤ BLOCK_SIZE) (hL : 1 ≤ LEVELS_PER_THREAD)
    (heInt : elSize + BLOCK_SIZE ≤ 2 ^ 31 - 1)
    (hkInt : kparallel = true → kSize + LEVELS_PER_THREAD ≤ 2 ^ 31 - 1) :
    (((grid BLOCK_SIZE LEVELS_PER_THREAD kSize elSize kparallel).x : Nat) : Int)
        = ⌈(elSize : ℚ) / (BLOCK_SIZE : ℚ)⌉ ∧
    (((grid BLOCK_SIZE LEVELS_PER_THREAD kSize elSize kparallel).y : Nat) : Int)
        = (if kparallel then ⌈(kSize : ℚ) / (LEVELS_PER_THREAD : ℚ)⌉ else 1) ∧
    (grid BLOCK_SIZE LEVELS_PER_THREAD kSize elSize kparallel).z = 1 := by
  have hx := ceil_div_bounds elSize BLOCK_SIZE he hB
  have hy := ceil_div_bounds kSize LEVELS_PER_THREAD hk hL
  have hxU : ((toUnsigned (Int.tdiv (toInt32 (toInt32 (elSize + BLOCK_SIZE) - 1)) BLOCK_SIZE)
      : Nat) : Int) = ⌈(elSize : ℚ) / (BLOCK_SIZE : ℚ)⌉ := by
    rw [toInt32_sum elSize BLOCK_SIZE he hB heInt, tdiv_ceil elSize BLOCK_SIZE he hB]
    exact toUnsigned_of_range _ hx.1 (by omega)
  have h1 : toUnsigned 1 = 1 := by decide
  cases kparallel
  · simp only [grid, Bool.false_eq_true, if_false, h1]
    exact ⟨hxU, by norm_num, trivial⟩
  · have hyU : ((toUnsigned
        (Int.tdiv (toInt32 (toInt32 (kSize + LEVELS_PER_THREAD) - 1)) LEVELS_PER_THREAD)
        : Nat) : Int) = ⌈(kSize : ℚ) / (LEVELS_PER_THREAD : ℚ)⌉ := by
      have hkI := hkInt rfl
      rw [toInt32_sum kSize LEVELS_PER_THREAD hk hL hkI,
        tdiv_ceil kSize LEVELS_PER_THREAD hk hL]
      exact toUnsigned_of_range _ hy.1 (by omega)
    simp only [grid, if_true, h1]
    exact ⟨hxU, hyU, trivial⟩

/-- The scenario of the specification: vertical size 80, 4 levels per thread and block size
128 give `grid.y = 20` and `grid.z = 1` (and `grid.x = 8` for 1000 elements). -/
theorem grid_dims_witness :
    (((grid 128 4 80 1000 true).x : Nat) : Int) = ⌈((1000 : Int) : ℚ) / ((128 : Int) : ℚ)⌉ ∧
    (((grid 128 4 80 1000 true).y : Nat) : Int)
      = (if true then ⌈((80 : Int) : ℚ) / ((4 : Int) : ℚ)⌉ else 1) ∧
    (grid 128 4 80 1000 true).z = 1 ∧
    grid 128 4 80 1000 true = ⟨8, 20, 1⟩ :=
  ⟨(grid_dims 128 4 80 1000 true (by decide) (by decide) (by decide) (by decide)
      (by decide) (fun _ => by decide)).1,
    (grid_dims 128 4 80 1000 true (by decide) (by decide) (by decide) (by decide)
      (by decide) (fun _ => by decide)).2.1,
    (grid_dims 128 4 80 1000 true (by decide) (by decide) (by decide) (by decide)
      (by decide) (fun _ => by decide)).2.2, by decide⟩

/-- Counterexample to C8 as stated: `kSize = elSize = 2147483647` (the largest `int`),
`BLOCK_SIZE = 128`, `LEVELS_PER_THREAD = 4`. The 32-bit sums `elSize + BLOCK_SIZE - 1` and
`kSize + LEVELS_PER_THREAD - 1` overflow and the emitted `grid` returns
`(4278190081, 3758096385, 1)`, while the ceilings of the quotients are `16777216` and
`536870912`. -/
theorem grid_overflow :
    (0 : Int) ≤ 2147483647 ∧ (1 : Int) ≤ 128 ∧ (1 : Int) ≤ 4 ∧
    grid 128 4 2147483647 2147483647 true = ⟨4278190081, 3758096385, 1⟩ ∧
    ⌈((2147483647 : Int) : ℚ) / ((128 : Int) : ℚ)⌉ = 16777216 ∧
    ⌈((2147483647 : Int) : ℚ) / ((4 : Int) : ℚ)⌉ = 536870912 ∧
    (((grid 128 4 2147483647 2147483647 true).x : Nat) : Int)
      ≠ ⌈((2147483647 : Int) : ℚ) / ((128 : Int) : ℚ)⌉ ∧
    (((grid 128 4 2147483647 2147483647 true).y : Nat) : Int)
      ≠ ⌈((2147483647 : Int) : ℚ) / ((4 : Int) : ℚ)⌉ := by
  have hg : grid 128 4 2147483647 2147483647 true = ⟨4278190081, 3758096385, 1⟩ := by
    decide
  have hx : ⌈((2147483647 : Int) : ℚ) / ((128 : Int) : ℚ)⌉ = 16777216 := by
    rw [← tdiv_ceil 2147483647 128 (by decide) (by decide)]
    decide
  have hy : ⌈((2147483647 : Int) : ℚ) / ((4 : Int) : ℚ)⌉ = 536870912 := by
    rw [← tdiv_ceil 2147483647 4 (by decide) (by decide)]
    decide
  refine ⟨by decide, by decide, by decide, hg, hx, hy, ?_, ?_⟩
  · rw [hg, hx]
    decide
  · rw [hg, hy]
    decide

end GridClaims


/-! ## The vertical loop -/

section KLoop

/-- The guard expression of the kernel evaluates to the resolved upper bound. -/
theorem kernelKSize_eval (interval : Interval) (kSize kidx lpt : Int) :
    (kernelKSize interval).eval (kernelEnv kSize kidx lpt)
      = resolvedBound interval Bound.upper kSize := by
  unfold kernelKSize resolvedBound
  cases h : interval.levelIsEnd Bound.upper <;>
    simp [CExpr.eval, kernelEnv, Interval.offset, Interval.level]

/-- The body never executes at a level at or beyond the guard. -/
theorem kLoop_lt_guard (loopOrder : LoopOrderKind) (khi kSizeGuard : Int) (fuel : Nat)
    (start k : Int) (hk : k ∈ kLoop loopOrder khi kSizeGuard fuel start) : k < kSizeGuard := by
  induction fuel generalizing start with
  | zero => simp [kLoop] at hk
  | succ fuel ih =>
    unfold kLoop at hk
    split at hk
    · split at hk
      · simp at hk
      · rcases List.mem_cons.mp hk with h | h
        · subst h; omega
        · exact ih _ h
    · simp at hk

/-- In every loop order, every level at which the kernel body executes is below the
resolved upper bound of the interval. -/
theorem kernelLevels_lt_upper (interval : Interval) (loopOrder : LoopOrderKind)
    (kSize kidx lpt k : Int) (hk : k ∈ kernelLevels interval loopOrder kSize kidx lpt) :
    k < resolvedBound interval Bound.upper kSize := by
  rw [← kernelKSize_eval interval kSize kidx lpt]
  exact kLoop_lt_guard _ _ _ _ _ _ hk

/-- One iteration of the emitted loop. -/
theorem kLoop_succ (loopOrder : LoopOrderKind) (khi kSizeGuard : Int) (fuel : Nat)
    (kIter : Int) :
    kLoop loopOrder khi kSizeGuard (fuel + 1) kIter
      = if comparisonOperator loopOrder kIter khi then
          if kIter ≥ kSizeGuard then []
          else kIter :: kLoop loopOrder khi kSizeGuard fuel (incrementIterator kIter loopOrder)
        else [] := rfl

/-- One more iteration of fuel than `|khi - kIter|` changes nothing: the loop has left. -/
theorem kLoop_succ_fuel (loopOrder : LoopOrderKind) (khi kSizeGuard : Int) (fuel : Nat)
    (start : Int) (hfuel : (khi - start).natAbs ≤ fuel) :
    kLoop loopOrder khi kSizeGuard (fuel + 1) start
      = kLoop loopOrder khi kSizeGuard fuel start := by
  induction fuel generalizing start with
  | zero =>
    have hs : start = khi := by omega
    subst hs
    simp [kLoop, comparisonOperator]
  | succ fuel ih =>
    rw [kLoop_succ loopOrder khi kSizeGuard (fuel + 1) start,
      kLoop_succ loopOrder khi kSizeGuard fuel start]
    by_cases hc : comparisonOperator loopOrder start khi = true
    · have hnext : (khi - incrementIterator start loopOrder).natAbs ≤ fuel := by
        unfold comparisonOperator at hc
        unfold incrementIterator
        by_cases hb : loopOrder = LoopOrderKind.Backward
        · simp only [hb, if_true, decide_eq_true_eq] at hc ⊢
          omega
        · simp only [hb, if_false, decide_eq_true_eq] at hc ⊢
          omega
      rw [ih _ hnext]
    · simp [hc]

/-- The fuel supplied by `kernelLevels` is enough: any larger amount gives the same
levels, so the list is the complete run of the emitted loop. -/
theorem kLoop_fuel_enough (loopOrder : LoopOrderKind) (khi kSizeGuard : Int) (extra : Nat)
    (start : Int) :
    kLoop loopOrder khi kSizeGuard ((khi - start).natAbs + extra) start
      = kLoop loopOrder khi kSizeGuard (khi - start).natAbs start := by
  induction extra with
  | zero => rfl
  | succ extra ih =>
    rw [← Nat.add_assoc, kLoop_succ_fuel _ _ _ _ _ (Nat.le_add_right _ _), ih]

end KLoop

/-! ## Claims on the vertical bounds -/

section BoundClaims

/-- C9 (Parallel order, levels inside the resolved interval): the generated kernel at a
failing input. The interval has the absolute lower bound `5 + 0` and the end-relative upper
bound `kSize + 0`; with `kSize = 80` and `LEVELS_PER_THREAD = 4` the thread of chunk index
`0` executes the body at the levels `0, 1, 2, 3`, all below the resolved lower bound `5`
(the resolved interval is `[5, 80)`): `klo` is computed from the offset alone. -/
theorem parallel_levels_below_lower_bound :
    kernelLevels ⟨5, 0, 0, 0, false, true⟩ LoopOrderKind.Parallel 80 0 4 = [0, 1, 2, 3] ∧
    resolvedBound ⟨5, 0, 0, 0, false, true⟩ Bound.lower 80 = 5 ∧
    resolvedBound ⟨5, 0, 0, 0, false, true⟩ Bound.upper 80 = 80 ∧
    ¬ (∀ kIter ∈ kernelLevels ⟨5, 0, 0, 0, false, true⟩ LoopOrderKind.Parallel 80 0 4,
        resolvedBound ⟨5, 0, 0, 0, false, true⟩ Bound.lower 80 ≤ kIter ∧
        kIter < resolvedBound ⟨5, 0, 0, 0, false, true⟩ Bound.upper 80) := by
  decide

/-- C10 (order of `klo` and `khi`): the generated bounds at a failing input. The interval
has the absolute bounds `0 + 5` and `10 + 0`, so its resolved lower bound `5` does not
exceed its resolved upper bound `10`; the Forward bounds are `klo = 5`, `khi = 0` and the
Backward bounds are `klo = -1`, `khi = 4`: the level of an absolute bound is dropped. -/
theorem sequential_bounds_drop_level :
    resolvedBound ⟨0, 10, 5, 0, false, false⟩ Bound.lower 80
      ≤ resolvedBound ⟨0, 10, 5, 0, false, false⟩ Bound.upper 80 ∧
    (generateKIntervalBounds ⟨0, 10, 5, 0, false, false⟩ LoopOrderKind.Forward).1.eval
      (kernelEnv 80 0 4) = 5 ∧
    (generateKIntervalBounds ⟨0, 10, 5, 0, false, false⟩ LoopOrderKind.Forward).2.eval
      (kernelEnv 80 0 4) = 0 ∧
    (generateKIntervalBounds ⟨0, 10, 5, 0, false, false⟩ LoopOrderKind.Backward).1.eval
      (kernelEnv 80 0 4) = -1 ∧
    (generateKIntervalBounds ⟨0, 10, 5, 0, false, false⟩ LoopOrderKind.Backward).2.eval
      (kernelEnv 80 0 4) = 4 := by
  decide

end BoundClaims


/-! ## Kernel signature and kernel call, in closed form -/

section Signature

/-- The parameter list of a kernel, segment by segment. -/
theorem kernelParams_eq (locToStrideString : LocationType → String) (globalsMapEmpty : Bool)
    (stage : Stage) :
    kernelParams locToStrideString globalsMapEmpty stage
      = (if globalsMapEmpty then [] else [KernelParam.globals])
        ++ [KernelParam.denseSize (locToStrideString stage.locationType)]
        ++ (locArgs locToStrideString stage.locationType stage.fields).map KernelParam.denseSize
        ++ [KernelParam.kSize]
        ++ (if stage.unstructuredIterationSpace.isSome then [KernelParam.hOffset] else [])
        ++ [KernelParam.hSize]
        ++ (stageChains stage).map KernelParam.table
        ++ stage.fields.map (fun f =>
            KernelParam.field (decide (f.intend = IntendKind.Input)) f.accessID) := by
  unfold kernelParams
  simp only [foldl_push]
  cases globalsMapEmpty <;> cases stage.unstructuredIterationSpace.isSome <;>
    simp [List.append_assoc]

/-- The argument list of a kernel call, segment by segment. -/
theorem kernelCallArgs_eq (locToStrideString : LocationType → String) (globalsMapEmpty : Bool)
    (stage : Stage) :
    kernelCallArgs locToStrideString globalsMapEmpty stage
      = (if globalsMapEmpty then [] else [CallArg.m_globals])
        ++ [CallArg.meshStride (locToStrideString stage.locationType)]
        ++ (locArgs locToStrideString stage.locationType stage.fields).map CallArg.meshStride
        ++ [CallArg.kSize_]
        ++ (if stage.unstructuredIterationSpace.isSome then [CallArg.hoffset stage.stageID]
            else [])
        ++ [CallArg.hsize stage.stageID]
        ++ (stageChains stage).map CallArg.meshTable
        ++ stage.fields.map (fun f => CallArg.fieldMember f.accessID) := by
  unfold kernelCallArgs
  simp only [foldl_push]
  cases globalsMapEmpty <;> cases stage.unstructuredIterationSpace.isSome <;>
    simp [List.append_assoc]

theorem nodup_unorderedSetInsert {β : Type} [DecidableEq β] (s : List β) (x : β)
    (hs : s.Nodup) : (unorderedSetInsert s x).Nodup := by
  unfold unorderedSetInsert
  by_cases h : x ∈ s
  · rw [if_pos h]; exact hs
  · rw [if_neg h]
    exact List.Nodup.append hs (List.nodup_singleton x) (by simpa using h)

mutual
/-- Visiting a node keeps the collected set free of duplicates. -/
theorem nodup_visit (spaces_ : List UnstructuredIterationSpace) (hs : spaces_.Nodup) :
    (node : ASTNode) → (CollectIterationSpaces.visit spaces_ node).Nodup
  | .ReductionOverNeighborExpr iterSpace children => by
    rw [CollectIterationSpaces.visit]
    exact nodup_visitChildren _ (nodup_unorderedSetInsert _ iterSpace hs) children
  | .LoopStmt iterSpace children => by
    rw [CollectIterationSpaces.visit]
    exact nodup_visitChildren _ (nodup_unorderedSetInsert _ iterSpace hs) children
  | .other children => by
    rw [CollectIterationSpaces.visit]
    exact nodup_visitChildren _ hs children
/-- Visiting a list of children keeps the collected set free of duplicates. -/
theorem nodup_visitChildren (spaces_ : List UnstructuredIterationSpace) (hs : spaces_.Nodup) :
    (children : List ASTNode) →
      (CollectIterationSpaces.visitChildren spaces_ children).Nodup
  | [] => by
    rw [CollectIterationSpaces.visitChildren]
    exact hs
  | c :: cs => by
    rw [CollectIterationSpaces.visitChildren]
    exact nodup_visitChildren _ (nodup_visit spaces_ hs c) cs
end

end Signature


/-! ## Claims on the kernel signature and the kernel call -/

section SignatureClaims

/-- C12 (signature and call site agree). For every stage, every globals map (empty or not)
and every naming of the strides, the argument list emitted at the kernel call has the
length of the parameter list emitted for the kernel, the argument at each position has the
role of the parameter at that position (globals, dense size of the same stride, kSize,
hOffset, hSize, table of the same iteration space, field of the same access ID), and the
template argument list is the template parameter list. -/
theorem kernel_call_matches_signature (locToStrideString : LocationType → String)
    (globalsMapEmpty : Bool) (stage : Stage) :
    (kernelCallArgs locToStrideString globalsMapEmpty stage).length
        = (kernelParams locToStrideString globalsMapEmpty stage).length ∧
    (kernelCallArgs locToStrideString globalsMapEmpty stage).map CallArg.role
        = (kernelParams locToStrideString globalsMapEmpty stage).map KernelParam.role ∧
    kernelCallTemplateArgs stage = kernelTemplateParams stage := by
  have hrole : (kernelCallArgs locToStrideString globalsMapEmpty stage).map CallArg.role
      = (kernelParams locToStrideString globalsMapEmpty stage).map KernelParam.role := by
    rw [kernelCallArgs_eq, kernelParams_eq]
    cases globalsMapEmpty <;> cases stage.unstructuredIterationSpace.isSome <;>
      simp [List.map_append, List.map_map, CallArg.role, KernelParam.role, Function.comp_def]
  refine ⟨?_, hrole, rfl⟩
  have := congrArg List.length hrole
  simpa using this

/-- C14 (const qualification). For every field of a stage the kernel has the pointer
parameter of that field, const-qualified exactly when the intent of the field is Input
(so Output and InputOutput fields are non-const); and every field pointer parameter of the
kernel is the parameter of a field of the stage, const-qualified iff that field is Input. -/
theorem kernel_field_const_iff_input (locToStrideString : LocationType → String)
    (globalsMapEmpty : Bool) (stage : Stage) :
    (∀ f ∈ stage.fields,
      KernelParam.field (decide (f.intend = IntendKind.Input)) f.accessID
        ∈ kernelParams locToStrideString globalsMapEmpty stage) ∧
    (∀ (isConst : Bool) (accessID : Int),
      KernelParam.field isConst accessID ∈ kernelParams locToStrideString globalsMapEmpty stage →
      ∃ f ∈ stage.fields, f.accessID = accessID ∧
        (isConst = true ↔ f.intend = IntendKind.Input)) := by
  rw [kernelParams_eq]
  constructor
  · intro f hf
    apply List.mem_append_right
    exact List.mem_map.mpr ⟨f, hf, rfl⟩
  · intro isConst accessID hmem
    have hfield : KernelParam.field isConst accessID ∈ stage.fields.map (fun f =>
        KernelParam.field (decide (f.intend = IntendKind.Input)) f.accessID) := by
      cases globalsMapEmpty <;> cases stage.unstructuredIterationSpace.isSome <;>
        simpa using hmem
    obtain ⟨f, hf, heq⟩ := List.mem_map.mp hfield
    simp only [KernelParam.field.injEq] at heq
    refine ⟨f, hf, heq.2, ?_⟩
    rw [← heq.1]
    simp

end SignatureClaims


/-! ## Claims on verify and on the interval check -/

section VerifyClaims

/-- C11 (verify is true only if every field passes): the emitted `verify_N` at a failing
input. The stencil has the two dense output fields `a` (access ID 1) and `b` (access ID 2),
for both of which a comparison block is emitted, in this order; the comparison of `a` fails
and that of `b` passes. The emitted body assigns `isValid` once per field and returns the
last value, so it returns `true`. -/
theorem verify_returns_last_comparison :
    verifyFields
        ⟨[1, 2],
          [(1, ⟨"a", ⟨1, IntendKind.Output,
              FieldDimensions.horizontal ⟨LocationType.Cells, [], false⟩ true⟩⟩),
            (2, ⟨"b", ⟨2, IntendKind.InputOutput,
              FieldDimensions.horizontal ⟨LocationType.Cells, [], false⟩ true⟩⟩)], []⟩
      = some
          [⟨"a", ⟨1, IntendKind.Output,
              FieldDimensions.horizontal ⟨LocationType.Cells, [], false⟩ true⟩⟩,
            ⟨"b", ⟨2, IntendKind.InputOutput,
              FieldDimensions.horizontal ⟨LocationType.Cells, [], false⟩ true⟩⟩] ∧
    verifyAPI
        [⟨"a", ⟨1, IntendKind.Output,
            FieldDimensions.horizontal ⟨LocationType.Cells, [], false⟩ true⟩⟩,
          ⟨"b", ⟨2, IntendKind.InputOutput,
            FieldDimensions.horizontal ⟨LocationType.Cells, [], false⟩ true⟩⟩]
        (fun fieldInfo => decide (fieldInfo.field.accessID = 2))
      = some true := by
  decide

/-- C15 (the interval check accepts only stages with one interval): the check at a failing
input. The stage has two DoMethods, with the intervals `[0 + 0, kSize + 0)` and
`[0 + 2, kSize + 0)`: same levels, different lower offsets. `intervalsConsistent` accepts
the stage; the kernel is generated from the interval of the first DoMethod, and (Forward
order, `kSize = 4`) its body, which holds the statements of both DoMethods, executes at the
levels 0 and 1, outside the interval of the second DoMethod. -/
theorem intervalsConsistent_ignores_offsets :
    intervalsConsistent
        ⟨0, LocationType.Cells, none, [],
          [⟨⟨0, 0, 0, 0, false, true⟩, []⟩, ⟨⟨0, 0, 2, 0, false, true⟩, []⟩]⟩ = true ∧
    (⟨0, 0, 0, 0, false, true⟩ : Interval) ≠ ⟨0, 0, 2, 0, false, true⟩ ∧
    stageKernelInterval
        ⟨0, LocationType.Cells, none, [],
          [⟨⟨0, 0, 0, 0, false, true⟩, []⟩, ⟨⟨0, 0, 2, 0, false, true⟩, []⟩]⟩
      = some ⟨0, 0, 0, 0, false, true⟩ ∧
    kernelLevels ⟨0, 0, 0, 0, false, true⟩ LoopOrderKind.Forward 4 0 1 = [0, 1, 2, 3] ∧
    resolvedBound ⟨0, 0, 2, 0, false, true⟩ Bound.lower 4 = 2 := by
  decide

end VerifyClaims


/-! ## Claims on copy in and copy out -/

section CopyClaims

variable {α : Type} [Inhabited α]

end CopyClaims


/-! ## Claims on the run function -/

section RunClaims

/-- The valid sub-domain codes. -/
theorem spaceMagicNumToEnum_ok_iff (magicNum : Int) :
    (∃ tag, spaceMagicNumToEnum magicNum = Except.ok tag)
      ↔ magicNum = 0 ∨ magicNum = 1000 ∨ magicNum = 2000 ∨ magicNum = 3000
          ∨ magicNum = 4000 := by
  unfold spaceMagicNumToEnum
  constructor
  · rintro ⟨tag, h⟩
    by_contra hne
    simp only [not_or] at hne
    obtain ⟨h0, h1, h2, h3, h4⟩ := hne
    simp [h0, h1, h2, h3, h4] at h
  · rintro (h | h | h | h | h) <;> subst h <;> simp

/-- An invalid sub-domain code gives the error. -/
theorem spaceMagicNumToEnum_error_iff (magicNum : Int) :
    (∃ e, spaceMagicNumToEnum magicNum = Except.error e)
      ↔ ¬ (magicNum = 0 ∨ magicNum = 1000 ∨ magicNum = 2000 ∨ magicNum = 3000
          ∨ magicNum = 4000) := by
  rw [← spaceMagicNumToEnum_ok_iff]
  cases h : spaceMagicNumToEnum magicNum with
  | error e => simp
  | ok tag => simp

/-- The run code of a stage without a sub-domain restriction. -/
theorem generateRunStage_unrestricted (locToStrideString : LocationType → String)
    (globalsMapEmpty : Bool) (ms : MultiStage) (stage : Stage) (child0 : DoMethod)
    (hconsistent : intervalsConsistent stage = true)
    (hchild : stage.doMethods.head? = some child0)
    (hnone : stage.unstructuredIterationSpace = none) :
    generateRunStage locToStrideString globalsMapEmpty ms stage
      = Except.ok ⟨stage.stageID, HExpr.zero, HExpr.numElements stage.locationType,
          runKSize child0.interval, decide (ms.loopOrder = LoopOrderKind.Parallel),
          kernelCallTemplateArgs stage,
          kernelCallArgs locToStrideString globalsMapEmpty stage⟩ := by
  simp only [generateRunStage, hconsistent, hchild, hnone, numElementsString]
  rfl

/-- The run code of a stage restricted to a sub-domain with valid codes. -/
theorem generateRunStage_restricted (locToStrideString : LocationType → String)
    (globalsMapEmpty : Bool) (ms : MultiStage) (stage : Stage) (child0 : DoMethod)
    (domain : Interval) (lowerTag upperTag : UnstructuredSubdomain)
    (hconsistent : intervalsConsistent stage = true)
    (hchild : stage.doMethods.head? = some child0)
    (hsome : stage.unstructuredIterationSpace = some domain)
    (hlower : spaceMagicNumToEnum domain.lowerLevel = Except.ok lowerTag)
    (hupper : spaceMagicNumToEnum domain.upperLevel = Except.ok upperTag) :
    generateRunStage locToStrideString globalsMapEmpty ms stage
      = Except.ok ⟨stage.stageID,
          HExpr.horizontalDomain stage.locationType lowerTag domain.lowerOffset,
          HExpr.sub (HExpr.horizontalDomain stage.locationType upperTag domain.upperOffset)
            (HExpr.horizontalDomain stage.locationType lowerTag domain.lowerOffset),
          runKSize child0.interval, decide (ms.loopOrder = LoopOrderKind.Parallel),
          kernelCallTemplateArgs stage,
          kernelCallArgs locToStrideString globalsMapEmpty stage⟩ := by
  simp only [generateRunStage, hconsistent, hchild, hsome, numElementsString,
    hOffsetSizeString, hlower, hupper]
  rfl

/-- C18 (horizontal launch range). For every stage that passes the interval assertion and
has a DoMethod: without a sub-domain restriction the emitted run code of the stage has
horizontal offset 0 and horizontal size `mesh_.Num<Kind>`, the element count of the
stage's kind; with a sub-domain whose lower and upper codes denote the tags `lowerTag` and
`upperTag` it has offset `HorizontalDomain(kind, lowerTag, lowerOffset)` and size
`HorizontalDomain(kind, upperTag, upperOffset) - HorizontalDomain(kind, lowerTag,
lowerOffset)`. In both cases the code of the stage is generated. -/
theorem horizontal_launch_range (locToStrideString : LocationType → String)
    (globalsMapEmpty : Bool) (ms : MultiStage) (stage : Stage) (child0 : DoMethod)
    (hconsistent : intervalsConsistent stage = true)
    (hchild : stage.doMethods.head? = some child0) (mesh_ : GpuTriMesh) :
    (stage.unstructuredIterationSpace = none →
      ∃ launch, generateRunStage locToStrideString globalsMapEmpty ms stage = Except.ok launch ∧
        launch.hOffset.eval mesh_ = 0 ∧
        launch.hSize.eval mesh_ = (mesh_.numElements stage.locationType : Int)) ∧
    (∀ (domain : Interval) (lowerTag upperTag : UnstructuredSubdomain),
      stage.unstructuredIterationSpace = some domain →
      spaceMagicNumToEnum domain.lowerLevel = Except.ok lowerTag →
      spaceMagicNumToEnum domain.upperLevel = Except.ok upperTag →
      ∃ launch, generateRunStage locToStrideString globalsMapEmpty ms stage = Except.ok launch ∧
        launch.hOffset.eval mesh_
          = mesh_.HorizontalDomain stage.locationType lowerTag domain.lowerOffset ∧
        launch.hSize.eval mesh_
          = mesh_.HorizontalDomain stage.locationType upperTag domain.upperOffset
            - mesh_.HorizontalDomain stage.locationType lowerTag domain.lowerOffset) := by
  constructor
  · intro hnone
    exact ⟨_, generateRunStage_unrestricted locToStrideString globalsMapEmpty ms stage child0
      hconsistent hchild hnone, rfl, rfl⟩
  · intro domain lowerTag upperTag hsome hlower hupper
    exact ⟨_, generateRunStage_restricted locToStrideString globalsMapEmpty ms stage child0
      domain lowerTag upperTag hconsistent hchild hsome hlower hupper, rfl, rfl⟩

theorem horizontal_launch_range_witness :
    ∃ launch,
      generateRunStage (fun _ => "CellStride") true
          ⟨LoopOrderKind.Parallel, []⟩
          ⟨7, LocationType.Cells, some ⟨2000, 3000, 0, -1, false, false⟩, [],
            [⟨⟨0, 0, 0, 0, false, true⟩, []⟩]⟩ = Except.ok launch ∧
        launch.hOffset.eval
            ⟨0, 0, 100, 0, 0, 100,
              fun _ tag offset =>
                (if tag = UnstructuredSubdomain.Interior then 10 else 90) + offset,
              fun _ => []⟩
          = 10 + 0 ∧
        launch.hSize.eval
            ⟨0, 0, 100, 0, 0, 100,
              fun _ tag offset =>
                (if tag = UnstructuredSubdomain.Interior then 10 else 90) + offset,
              fun _ => []⟩
          = (90 + -1) - (10 + 0) :=
  (horizontal_launch_range (fun _ => "CellStride") true ⟨LoopOrderKind.Parallel, []⟩
    ⟨7, LocationType.Cells, some ⟨2000, 3000, 0, -1, false, false⟩, [],
      [⟨⟨0, 0, 0, 0, false, true⟩, []⟩]⟩
    ⟨⟨0, 0, 0, 0, false, true⟩, []⟩ (by decide) rfl
    ⟨0, 0, 100, 0, 0, 100,
      fun _ tag offset => (if tag = UnstructuredSubdomain.Interior then 10 else 90) + offset,
      fun _ => []⟩).2
    ⟨2000, 3000, 0, -1, false, false⟩ UnstructuredSubdomain.Interior
    UnstructuredSubdomain.Halo rfl rfl rfl

/-- C19 (sub-domain codes). The code of a sub-domain bound is mapped 0 to LateralBoundary,
1000 to Nudging, 2000 to Interior, 3000 to Halo and 4000 to End, and the mapping fails with
an error exactly when the code is none of the five; for a stage with a sub-domain (that
passes the interval assertion and has a DoMethod) the generation of the run code of the
stage fails exactly when its lower or its upper code is none of the five. -/
theorem subdomain_codes (locToStrideString : LocationType → String)
    (globalsMapEmpty : Bool) (ms : MultiStage) (stage : Stage) (child0 : DoMethod)
    (domain : Interval) (hconsistent : intervalsConsistent stage = true)
    (hchild : stage.doMethods.head? = some child0)
    (hdomain : stage.unstructuredIterationSpace = some domain) :
    spaceMagicNumToEnum 0 = Except.ok UnstructuredSubdomain.LateralBoundary ∧
    spaceMagicNumToEnum 1000 = Except.ok UnstructuredSubdomain.Nudging ∧
    spaceMagicNumToEnum 2000 = Except.ok UnstructuredSubdomain.Interior ∧
    spaceMagicNumToEnum 3000 = Except.ok UnstructuredSubdomain.Halo ∧
    spaceMagicNumToEnum 4000 = Except.ok UnstructuredSubdomain.End ∧
    (∀ magicNum : Int, (∃ e, spaceMagicNumToEnum magicNum = Except.error e)
      ↔ ¬ (magicNum = 0 ∨ magicNum = 1000 ∨ magicNum = 2000 ∨ magicNum = 3000
          ∨ magicNum = 4000)) ∧
    ((∃ e, generateRunStage locToStrideString globalsMapEmpty ms stage = Except.error e)
      ↔ ¬ (domain.lowerLevel = 0 ∨ domain.lowerLevel = 1000 ∨ domain.lowerLevel = 2000
            ∨ domain.lowerLevel = 3000 ∨ domain.lowerLevel = 4000)
        ∨ ¬ (domain.upperLevel = 0 ∨ domain.upperLevel = 1000 ∨ domain.upperLevel = 2000
            ∨ domain.upperLevel = 3000 ∨ domain.upperLevel = 4000)) := by
  refine ⟨rfl, rfl, rfl, rfl, rfl, spaceMagicNumToEnum_error_iff, ?_⟩
  rw [← spaceMagicNumToEnum_error_iff, ← spaceMagicNumToEnum_error_iff]
  simp only [generateRunStage, hconsistent, hchild, hdomain, numElementsString,
    hOffsetSizeString]
  cases hlo : spaceMagicNumToEnum domain.lowerLevel <;>
    cases hup : spaceMagicNumToEnum domain.upperLevel <;> simp

theorem subdomain_codes_witness :
    (∃ e, generateRunStage (fun _ => "CellStride") true ⟨LoopOrderKind.Parallel, []⟩
        ⟨7, LocationType.Cells, some ⟨2000, 2500, 0, 0, false, false⟩, [],
          [⟨⟨0, 0, 0, 0, false, true⟩, []⟩]⟩ = Except.error e)
      ↔ ¬ ((2000 : Int) = 0 ∨ (2000 : Int) = 1000 ∨ (2000 : Int) = 2000
            ∨ (2000 : Int) = 3000 ∨ (2000 : Int) = 4000)
        ∨ ¬ ((2500 : Int) = 0 ∨ (2500 : Int) = 1000 ∨ (2500 : Int) = 2000
            ∨ (2500 : Int) = 3000 ∨ (2500 : Int) = 4000) :=
  (subdomain_codes (fun _ => "CellStride") true ⟨LoopOrderKind.Parallel, []⟩
    ⟨7, LocationType.Cells, some ⟨2000, 2500, 0, 0, false, false⟩, [],
      [⟨⟨0, 0, 0, 0, false, true⟩, []⟩]⟩
    ⟨⟨0, 0, 0, 0, false, true⟩, []⟩ ⟨2000, 2500, 0, 0, false, false⟩
    (by decide) rfl rfl).2.2.2.2.2.2

/-- The stage loop of `run` changes nothing of the state but the device storage. -/
theorem run_loop_frame {α : Type} (BLOCK_SIZE LEVELS_PER_THREAD : Int)
    (launches : List StageLaunch)
    (kernel : StageLaunch → dim3 → Int → Int → (Int → List α) → (Int → List α))
    (acc : StencilState α × List RunEvent) :
    (launches.foldl (fun acc launch =>
        let s := acc.1
        let hoffset := launch.hOffset.eval s.mesh_
        let hsize := launch.hSize.eval s.mesh_
        if hsize ≠ 0 then
          let dG := grid BLOCK_SIZE LEVELS_PER_THREAD
            (launch.k_size.eval (kernelEnv s.kSize_ 0 LEVELS_PER_THREAD)) hsize
            launch.iskparallel
          ({ s with fields := kernel launch dG hoffset hsize s.fields },
            acc.2 ++ [RunEvent.kernelLaunch launch.stageID dG s.stream_ hoffset hsize])
        else acc) acc).1.is_setup_ = acc.1.is_setup_ := by
  induction launches generalizing acc with
  | nil => rfl
  | cons launch launches ih =>
    rw [List.foldl_cons, ih]
    by_cases h : launch.hSize.eval acc.1.mesh_ ≠ 0
    · simp only [h, ne_eq, not_false_eq_true, if_true]
    · simp only [h, if_false]

/-- C20 (run before setup is a no-op). In the emitted stencil state the flag `is_setup_`
is initially false, `setup` sets it, `free` and `run` leave it as it is; and whenever it is
false, `run()` returns the state unchanged (fields, mesh, sizes, stream and flag) and its
only visible effect is the diagnostic: no kernel is launched. -/
theorem run_before_setup_is_noop {α : Type} [Inhabited α] (stencilName : String)
    (BLOCK_SIZE LEVELS_PER_THREAD : Int) (launches : List StageLaunch)
    (kernel : StageLaunch → dim3 → Int → Int → (Int → List α) → (Int → List α))
    (ICOChainSize : UnstructuredIterationSpace → Nat) (stencil : Stencil)
    (mesh : GpuTriMesh) (kSize stream : Nat) (fieldKSize : Int → Int)
    (s : StencilState α) (hflag : s.is_setup_ = false) :
    (initialState : StencilState α).is_setup_ = false ∧
    (setup ICOChainSize stencil mesh kSize stream fieldKSize s).is_setup_ = true ∧
    (free stencil s).is_setup_ = s.is_setup_ ∧
    (∀ t : StencilState α,
      (run stencilName BLOCK_SIZE LEVELS_PER_THREAD launches kernel t).1.is_setup_
        = t.is_setup_) ∧
    run stencilName BLOCK_SIZE LEVELS_PER_THREAD launches kernel s
      = (s, [RunEvent.printf
          (stencilName ++ " has not been set up! make sure setup() is called before run!\n")]) ∧
    (∀ (stageID : Int) (dG : dim3) (launchStream : Nat) (hOffset hSize : Int),
      RunEvent.kernelLaunch stageID dG launchStream hOffset hSize
        ∉ (run stencilName BLOCK_SIZE LEVELS_PER_THREAD launches kernel s).2) := by
  have hrun : run stencilName BLOCK_SIZE LEVELS_PER_THREAD launches kernel s
      = (s, [RunEvent.printf
          (stencilName ++ " has not been set up! make sure setup() is called before run!\n")]) := by
    unfold run
    simp [hflag]
  refine ⟨rfl, rfl, rfl, ?_, hrun, ?_⟩
  · intro t
    unfold run
    by_cases ht : t.is_setup_ = true
    · simp only [ht, Bool.not_true, Bool.false_eq_true, if_false]
      exact (run_loop_frame BLOCK_SIZE LEVELS_PER_THREAD launches kernel (t, [])).trans ht
    · simp [ht]
  · intro stageID dG launchStream hOffset hSize
    rw [hrun]
    simp

theorem run_before_setup_is_noop_witness :
    run "laplace" 128 4
        [⟨0, HExpr.zero, HExpr.numElements LocationType.Cells, CExpr.var KVar.kSize, true,
          [], [CallArg.meshStride "CellStride", CallArg.kSize_, CallArg.hsize 0]⟩]
        (fun _ _ _ _ (fields : Int → List Nat) => fun _ => [1] ++ fields 0)
        (initialState : StencilState Nat)
      = (initialState, [RunEvent.printf
          ("laplace" ++ " has not been set up! make sure setup() is called before run!\n")]) :=
  (run_before_setup_is_noop "laplace" 128 4
    [⟨0, HExpr.zero, HExpr.numElements LocationType.Cells, CExpr.var KVar.kSize, true,
      [], [CallArg.meshStride "CellStride", CallArg.kSize_, CallArg.hsize 0]⟩]
    (fun _ _ _ _ (fields : Int → List Nat) => fun _ => [1] ++ fields 0)
    (fun _ => 0) ⟨[], [], []⟩ ⟨0, 0, 0, 0, 0, 0, fun _ _ _ => 0, fun _ => []⟩ 0 0
    (fun _ => 0) initialState rfl).2.2.2.2.1

end RunClaims


/-! ## Claims on the iteration-space collector -/

section CollectorClaims

theorem mem_unorderedSetInsert {β : Type} [DecidableEq β] (s : List β) (x z : β) :
    z ∈ unorderedSetInsert s x ↔ z = x ∨ z ∈ s := by
  unfold unorderedSetInsert
  by_cases h : x ∈ s
  · rw [if_pos h]
    constructor
    · exact fun hz => Or.inr hz
    · rintro (rfl | hz)
      · exact h
      · exact hz
  · rw [if_neg h]
    simp only [List.mem_append, List.mem_singleton]
    exact Or.comm

mutual
/-- Visiting a node adds exactly the iteration spaces that occur in it. -/
theorem mem_visit (sp : UnstructuredIterationSpace) (spaces_ : List UnstructuredIterationSpace) :
    (node : ASTNode) →
      (sp ∈ CollectIterationSpaces.visit spaces_ node ↔ sp ∈ spaces_ ∨ sp ∈ node.iterSpaces)
  | .ReductionOverNeighborExpr iterSpace children => by
    rw [CollectIterationSpaces.visit, ASTNode.iterSpaces,
      mem_visitChildren sp (unorderedSetInsert spaces_ iterSpace) children,
      mem_unorderedSetInsert, List.mem_cons]
    tauto
  | .LoopStmt iterSpace children => by
    rw [CollectIterationSpaces.visit, ASTNode.iterSpaces,
      mem_visitChildren sp (unorderedSetInsert spaces_ iterSpace) children,
      mem_unorderedSetInsert, List.mem_cons]
    tauto
  | .other children => by
    rw [CollectIterationSpaces.visit, ASTNode.iterSpaces,
      mem_visitChildren sp spaces_ children]
/-- Visiting a list of children adds exactly the iteration spaces that occur in them. -/
theorem mem_visitChildren (sp : UnstructuredIterationSpace)
    (spaces_ : List UnstructuredIterationSpace) :
    (children : List ASTNode) →
      (sp ∈ CollectIterationSpaces.visitChildren spaces_ children
        ↔ sp ∈ spaces_ ∨ sp ∈ ASTNode.iterSpacesOfList children)
  | [] => by
    rw [CollectIterationSpaces.visitChildren, ASTNode.iterSpacesOfList]
    simp
  | c :: cs => by
    rw [CollectIterationSpaces.visitChildren, ASTNode.iterSpacesOfList,
      mem_visitChildren sp (CollectIterationSpaces.visit spaces_ c) cs,
      mem_visit sp spaces_ c, List.mem_append]
    tauto
end

theorem mem_iterSpacesOfList (sp : UnstructuredIterationSpace) (children : List ASTNode) :
    sp ∈ ASTNode.iterSpacesOfList children ↔ ∃ c ∈ children, sp ∈ c.iterSpaces := by
  induction children with
  | nil =>
    rw [ASTNode.iterSpacesOfList]
    simp
  | cons c cs ih =>
    rw [ASTNode.iterSpacesOfList, List.mem_append, ih]
    simp

/-- C21 (iteration-space collection). For every tree, the collector started on the empty
set returns exactly the iteration spaces carried by the neighbour reductions and neighbour
loops that occur in the tree at any depth; the result has no repetition (two occurrences
with equal chain and centre flag give one element); and visiting a list of trees in any
order gives the same set (the two results are permutations of each other). -/
theorem collector_exact (node : ASTNode) :
    (∀ sp, sp ∈ CollectIterationSpaces.visit [] node ↔ sp ∈ node.iterSpaces) ∧
    (CollectIterationSpaces.visit [] node).Nodup ∧
    (∀ trees trees' : List ASTNode, trees.Perm trees' →
      (CollectIterationSpaces.visitChildren [] trees).Perm
        (CollectIterationSpaces.visitChildren [] trees')) := by
  refine ⟨?_, nodup_visit [] List.nodup_nil node, ?_⟩
  · intro sp
    rw [mem_visit]
    simp
  · intro trees trees' hperm
    rw [List.perm_ext_iff_of_nodup (nodup_visitChildren [] List.nodup_nil trees)
      (nodup_visitChildren [] List.nodup_nil trees')]
    intro sp
    rw [mem_visitChildren, mem_visitChildren, mem_iterSpacesOfList, mem_iterSpacesOfList]
    simp only [List.not_mem_nil, false_or]
    constructor
    · rintro ⟨c, hc, h⟩
      exact ⟨c, hperm.mem_iff.mp hc, h⟩
    · rintro ⟨c, hc, h⟩
      exact ⟨c, hperm.mem_iff.mpr hc, h⟩

theorem collector_exact_witness :
    (CollectIterationSpaces.visitChildren []
        [ASTNode.LoopStmt ⟨[LocationType.Cells, LocationType.Edges], false⟩
            [ASTNode.other [ASTNode.ReductionOverNeighborExpr
              ⟨[LocationType.Edges, LocationType.Cells], true⟩ []]],
          ASTNode.ReductionOverNeighborExpr ⟨[LocationType.Cells, LocationType.Edges], false⟩
            []]).Perm
      (CollectIterationSpaces.visitChildren []
        [ASTNode.ReductionOverNeighborExpr ⟨[LocationType.Cells, LocationType.Edges], false⟩
            [],
          ASTNode.LoopStmt ⟨[LocationType.Cells, LocationType.Edges], false⟩
            [ASTNode.other [ASTNode.ReductionOverNeighborExpr
              ⟨[LocationType.Edges, LocationType.Cells], true⟩ []]]]) :=
  (collector_exact (ASTNode.other [])).2.2 _ _ (List.Perm.swap _ _ _)

end CollectorClaims


/-! ## The vertical loop in closed form -/

section KLoopClosed

/-- An ascending loop (Forward or Parallel order) executes the body at the consecutive
levels from its start up to the smaller of `khi` and the guard. -/
theorem kLoop_ascending (loopOrder : LoopOrderKind) (hord : loopOrder ≠ LoopOrderKind.Backward)
    (khi kSizeGuard : Int) (fuel : Nat) (start : Int) (hfuel : (khi - start).toNat ≤ fuel) :
    kLoop loopOrder khi kSizeGuard fuel start
      = (List.range (min khi kSizeGuard - start).toNat).map (fun (i : Nat) => start + (i : Int)) := by
  induction fuel generalizing start with
  | zero =>
    have h0 : (min khi kSizeGuard - start).toNat = 0 := by omega
    rw [h0]
    rfl
  | succ fuel ih =>
    rw [kLoop_succ]
    simp only [comparisonOperator, hord, if_false, decide_eq_true_eq]
    by_cases hlt : start < khi
    · rw [if_pos hlt]
      by_cases hg : start ≥ kSizeGuard
      · rw [if_pos hg]
        have h0 : (min khi kSizeGuard - start).toNat = 0 := by omega
        rw [h0]
        rfl
      · rw [if_neg hg, incrementIterator, if_neg hord, ih (start + 1) (by omega)]
        have hsucc : (min khi kSizeGuard - start).toNat
            = (min khi kSizeGuard - (start + 1)).toNat + 1 := by omega
        rw [hsucc, List.range_succ_eq_map, List.map_cons, List.map_map]
        congr 1
        · simp
        · apply List.map_congr_left
          intro i _
          simp only [Function.comp_apply, Nat.succ_eq_add_one]
          push_cast
          ring
    · rw [if_neg hlt]
      have h0 : (min khi kSizeGuard - start).toNat = 0 := by omega
      rw [h0]
      rfl

/-- A descending loop (Backward order) that starts below the guard executes the body at
the consecutive levels from its start down to `khi + 1`. -/
theorem kLoop_descending (khi kSizeGuard : Int) (fuel : Nat) (start : Int)
    (hstart : start < kSizeGuard) (hfuel : (start - khi).toNat ≤ fuel) :
    kLoop LoopOrderKind.Backward khi kSizeGuard fuel start
      = (List.range (start - khi).toNat).map (fun (i : Nat) => start - (i : Int)) := by
  induction fuel generalizing start with
  | zero =>
    have h0 : (start - khi).toNat = 0 := by omega
    rw [h0]
    rfl
  | succ fuel ih =>
    rw [kLoop_succ]
    simp only [comparisonOperator, if_true, decide_eq_true_eq]
    by_cases hgt : start > khi
    · rw [if_pos hgt, if_neg (by omega), incrementIterator, if_pos rfl,
        ih (start - 1) (by omega) (by omega)]
      have hsucc : (start - khi).toNat = (start - 1 - khi).toNat + 1 := by omega
      rw [hsucc, List.range_succ_eq_map, List.map_cons, List.map_map]
      congr 1
      · simp
      · apply List.map_congr_left
        intro i _
        simp only [Function.comp_apply, Nat.succ_eq_add_one]
        push_cast
        ring
    · rw [if_neg hgt]
      have h0 : (start - khi).toNat = 0 := by omega
      rw [h0]
      rfl

/-- The ascending list of `n` levels from `a`, reversed, is the descending list of `n`
levels from `a + n - 1`. -/
theorem reverse_ascending (a : Int) (n : Nat) :
    ((List.range n).map (fun (i : Nat) => a + (i : Int))).reverse
      = (List.range n).map (fun (i : Nat) => a + (n : Int) - 1 - (i : Int)) := by
  induction n with
  | zero => rfl
  | succ n ih =>
    conv_lhs => rw [List.range_succ]
    rw [List.map_append, List.reverse_append, ih, List.range_succ_eq_map]
    simp only [List.map_cons, List.map_nil, List.reverse_cons, List.reverse_nil,
      List.nil_append, List.singleton_append, List.map_map]
    congr 1
    · push_cast
      ring
    · apply List.map_congr_left
      intro i _
      simp only [Function.comp_apply, Nat.succ_eq_add_one]
      push_cast
      ring

end KLoopClosed


/-! ## Claims on the order of the vertical traversal -/

section TraversalClaims

/-- C22 (Parallel-order bounds): the generated bounds at a failing input. The interval has
the absolute lower bound `5 + 0` and the end-relative upper bound `kSize + 0`; with
`kSize = 80`, `LEVELS_PER_THREAD = 4` and chunk index `c = 0` the kernel computes `klo = 0`
and `khi = 4`, not `klo = c * 4 + 5 = 5`: the level of the absolute lower bound is not
added. Chunk index `c = 2` gives `klo = 8`, `khi = 12`. -/
theorem parallel_bounds_drop_level :
    resolvedBound ⟨5, 0, 0, 0, false, true⟩ Bound.lower 80 = 5 ∧
    (generateKIntervalBounds ⟨5, 0, 0, 0, false, true⟩ LoopOrderKind.Parallel).1.eval
      (kernelEnv 80 0 4) = 0 ∧
    (generateKIntervalBounds ⟨5, 0, 0, 0, false, true⟩ LoopOrderKind.Parallel).2.eval
      (kernelEnv 80 0 4) = 4 ∧
    (generateKIntervalBounds ⟨5, 0, 0, 0, false, true⟩ LoopOrderKind.Parallel).1.eval
      (kernelEnv 80 2 4) = 8 ∧
    (generateKIntervalBounds ⟨5, 0, 0, 0, false, true⟩ LoopOrderKind.Parallel).2.eval
      (kernelEnv 80 2 4) = 12 := by
  decide

/-- C23 (Forward-order traversal): the generated Forward kernel at a failing input. The
interval has the absolute lower bound `5 + 0` and the end-relative upper bound `kSize + 0`;
with `kSize = 8` the resolved interval is `[5, 8)`, but the kernel sets `klo = 0`,
`khi = 8` and executes its body at the levels `0, 1, ..., 7`. -/
theorem forward_levels_drop_level :
    resolvedBound ⟨5, 0, 0, 0, false, true⟩ Bound.lower 8 = 5 ∧
    resolvedBound ⟨5, 0, 0, 0, false, true⟩ Bound.upper 8 = 8 ∧
    (generateKIntervalBounds ⟨5, 0, 0, 0, false, true⟩ LoopOrderKind.Forward).1.eval
      (kernelEnv 8 0 1) = 0 ∧
    (generateKIntervalBounds ⟨5, 0, 0, 0, false, true⟩ LoopOrderKind.Forward).2.eval
      (kernelEnv 8 0 1) = 8 ∧
    kernelLevels ⟨5, 0, 0, 0, false, true⟩ LoopOrderKind.Forward 8 0 1
      = [0, 1, 2, 3, 4, 5, 6, 7] := by
  decide

/-- The emitted upper bound of a sequential kernel does not exceed the guard, when the
level of an absolute upper bound is not negative. -/
theorem upper_bound_le_guard (interval : Interval) (kSize kidx lpt : Int)
    (hlevel : interval.upperLevelIsEnd = true ∨ 0 ≤ interval.upperLevel) :
    (intervalBoundToString interval Bound.upper).eval (kernelEnv kSize kidx lpt)
      ≤ (kernelKSize interval).eval (kernelEnv kSize kidx lpt) := by
  unfold intervalBoundToString kernelKSize
  cases hend : interval.upperLevelIsEnd
  · have h0 : 0 ≤ interval.upperLevel := by
      rcases hlevel with h | h
      · rw [hend] at h; cases h
      · exact h
    simp only [Interval.levelIsEnd, hend, Bool.false_eq_true, if_false, CExpr.eval,
      Interval.offset]
    omega
  · simp only [Interval.levelIsEnd, hend, if_true, CExpr.eval, Interval.offset]
    omega

/-- C24 (Backward order mirrors Forward order). For every stage interval (the level of an
absolute upper bound being a level index, hence not negative) and every runtime vertical
size, the levels at which the generated Backward kernel executes its body are, in order,
the reverse of the levels at which the generated Forward kernel executes its body. -/
theorem backward_reverses_forward (interval : Interval) (kSize kidx lpt : Int)
    (hlevel : interval.upperLevelIsEnd = true ∨ 0 ≤ interval.upperLevel) :
    kernelLevels interval LoopOrderKind.Backward kSize kidx lpt
      = (kernelLevels interval LoopOrderKind.Forward kSize kidx lpt).reverse := by
  have hU := upper_bound_le_guard interval kSize kidx lpt hlevel
  unfold kernelLevels
  simp only [generateKIntervalBounds, CExpr.eval]
  generalize (intervalBoundToString interval Bound.upper).eval (kernelEnv kSize kidx lpt) = U
    at hU ⊢
  generalize (intervalBoundToString interval Bound.lower).eval (kernelEnv kSize kidx lpt) = L
  generalize (kernelKSize interval).eval (kernelEnv kSize kidx lpt) = G at hU ⊢
  rw [kLoop_ascending LoopOrderKind.Forward (by decide) U G _ L (by omega),
    kLoop_descending (L - 1) G _ (U - 1) (by omega) (by omega), reverse_ascending,
    min_eq_left hU]
  have hn : (U - 1 - (L - 1)).toNat = (U - L).toNat := by omega
  rw [hn]
  apply List.map_congr_left
  intro i hi
  have hi' := List.mem_range.mp hi
  omega

theorem backward_reverses_forward_witness :
    kernelLevels ⟨0, 0, 2, -1, false, true⟩ LoopOrderKind.Backward 8 0 1 = [6, 5, 4, 3, 2] ∧
    kernelLevels ⟨0, 0, 2, -1, false, true⟩ LoopOrderKind.Backward 8 0 1
      = (kernelLevels ⟨0, 0, 2, -1, false, true⟩ LoopOrderKind.Forward 8 0 1).reverse :=
  ⟨by decide, backward_reverses_forward ⟨0, 0, 2, -1, false, true⟩ 8 0 1 (Or.inl rfl)⟩

end TraversalClaims


/-! ## Claims on the coverage of the launch -/

section CoverageClaims

/-- Counterexample to C25 as stated. The interval has the end-relative lower bound
`kSize - 3` (its level field holds the end marker, taken as `1048576`) and the absolute upper bound
`10 + 0`; with `kSize = 10` the lower bound `7` is anchored at the column end and does not
exceed the upper bound `10`. The vertical extent that `run` computes for the stage is
`10 + 0 - (-3 + 1048576)`, a negative number; the thread of chunk index `0` executes the
body at the levels `-3, -2, -1, 0` (with `LEVELS_PER_THREAD = 4`); and for no number of
chunks are the levels executed over all chunk indices `7, 8, 9`. -/
theorem parallel_mixed_interval_not_covered :
    resolvedBound ⟨1048576, 10, -3, 0, true, false⟩ Bound.lower 10 = 7 ∧
    resolvedBound ⟨1048576, 10, -3, 0, true, false⟩ Bound.upper 10 = 10 ∧
    (runKSize ⟨1048576, 10, -3, 0, true, false⟩).eval (kernelEnv 10 0 4) = -1048563 ∧
    kernelLevels ⟨1048576, 10, -3, 0, true, false⟩ LoopOrderKind.Parallel 10 0 4
      = [-3, -2, -1, 0] ∧
    ∀ gridY : Nat,
      (List.range gridY).flatMap
        (fun (kidx : Nat) =>
          kernelLevels ⟨1048576, 10, -3, 0, true, false⟩ LoopOrderKind.Parallel 10
            (kidx : Int) 4)
        ≠ [7, 8, 9] := by
  have h0 : kernelLevels ⟨1048576, 10, -3, 0, true, false⟩ LoopOrderKind.Parallel 10 0 4
      = [-3, -2, -1, 0] := by decide
  refine ⟨by decide, by decide, by decide, h0, ?_⟩
  intro gridY
  cases gridY with
  | zero => simp
  | succ n =>
    rw [List.range_succ_eq_map, List.flatMap_cons]
    simp only [Nat.cast_zero, h0]
    intro h
    cases h

/-- Conversion to `unsigned int` keeps a natural number below `2 ^ 32`. -/
theorem toUnsigned_natCast (n : Nat) (h : n < 2 ^ 32) : toUnsigned (n : Int) = n := by
  unfold toUnsigned
  rw [Int.emod_eq_of_lt (by omega) (by omega)]
  exact Int.toNat_natCast n

/-- The first component of the launch grid, in natural numbers. -/
theorem grid_x_nat (L kSize : Int) (kpar : Bool) (hs Bn : Nat) (hB : 1 ≤ Bn)
    (hsum : hs + Bn ≤ 2 ^ 31 - 1) :
    (grid (Bn : Int) L kSize (hs : Int) kpar).x = (hs + Bn - 1) / Bn := by
  have hx : toUnsigned (Int.tdiv (toInt32 (toInt32 ((hs : Int) + (Bn : Int)) - 1)) (Bn : Int))
      = (hs + Bn - 1) / Bn := by
    rw [toInt32_sum (hs : Int) (Bn : Int) (by omega) (by omega) (by omega),
      Int.tdiv_eq_ediv (by omega) (by omega)]
    have hcast : ((hs : Int) + (Bn : Int) - 1) = ((hs + Bn - 1 : Nat) : Int) := by omega
    rw [hcast, ← Int.ofNat_ediv]
    apply toUnsigned_natCast
    have := Nat.div_le_self (hs + Bn - 1) Bn
    omega
  cases kpar <;> simp only [grid, Bool.false_eq_true, if_false, if_true] <;> exact hx

/-- The horizontal part of a kernel when no `unsigned int` operation wraps. -/
theorem kernelElement_eq (hasDomain : Bool) (ho hs bd b t : Nat)
    (hs32 : hs < 2 ^ 32) (ho32 : b * bd + t + ho < 2 ^ 32) :
    kernelElement hasDomain (ho : Int) (hs : Int) bd b t
      = if b * bd + t < hs then some (b * bd + t + (if hasDomain then ho else 0))
        else none := by
  unfold kernelElement
  simp only [Nat.mod_eq_of_lt (show b * bd + t < 2 ^ 32 by omega), toUnsigned_natCast hs hs32]
  by_cases h : b * bd + t < hs
  · rw [if_neg (by omega), if_pos h]
    cases hasDomain
    · simp
    · simp only [if_true]
      have hcast : ((b * bd + t : Nat) : Int) + (ho : Int) = ((b * bd + t + ho : Nat) : Int) := by
        push_cast
        ring
      rw [hcast, toUnsigned_natCast _ ho32]
  · rw [if_pos (by omega), if_neg h]

/-- C26 (horizontal coverage). For every stage with horizontal size `hSize > 0` launched
with `grid.x` blocks of `BLOCK_SIZE` threads, the element indices on which the kernel body
runs are exactly those of `[hOffset, hOffset + hSize)` (with offset 0 for a stage without a
sub-domain), and each index is handled by exactly one thread `(blockIdx.x, threadIdx.x)`.
The sizes are `int` values of the host and the `int` additions do not overflow:
`BLOCK_SIZE ≥ 1`, `hOffset ≥ 0`, and `hSize + BLOCK_SIZE` (added by `grid`) and
`hOffset + hSize` are at most `2 ^ 31 - 1`. -/
theorem horizontal_coverage (BLOCK_SIZE LEVELS_PER_THREAD kSize hOffset hSize : Int)
    (kparallel hasDomain : Bool)
    (hB : 1 ≤ BLOCK_SIZE) (hS : 0 < hSize) (hGrid : hSize + BLOCK_SIZE ≤ 2 ^ 31 - 1)
    (hOff : 0 ≤ hOffset) (hInt : hOffset + hSize ≤ 2 ^ 31 - 1) :
    (∀ blockIdx threadIdx e,
      blockIdx < (grid BLOCK_SIZE LEVELS_PER_THREAD kSize hSize kparallel).x →
      threadIdx < toUnsigned BLOCK_SIZE →
      kernelElement hasDomain hOffset hSize (toUnsigned BLOCK_SIZE) blockIdx threadIdx
        = some e →
      (if hasDomain then hOffset else 0) ≤ (e : Int) ∧
        (e : Int) < (if hasDomain then hOffset else 0) + hSize) ∧
    (∀ e : Nat, (if hasDomain then hOffset else 0) ≤ (e : Int) →
      (e : Int) < (if hasDomain then hOffset else 0) + hSize →
      ∃! idx : Nat × Nat,
        idx.1 < (grid BLOCK_SIZE LEVELS_PER_THREAD kSize hSize kparallel).x ∧
        idx.2 < toUnsigned BLOCK_SIZE ∧
        kernelElement hasDomain hOffset hSize (toUnsigned BLOCK_SIZE) idx.1 idx.2
          = some e) := by
  lift BLOCK_SIZE to ℕ using (by omega : 0 ≤ BLOCK_SIZE) with Bn
  lift hSize to ℕ using (by omega : 0 ≤ hSize) with hs
  lift hOffset to ℕ using hOff with ho
  have hB1 : 1 ≤ Bn := by omega
  rw [grid_x_nat LEVELS_PER_THREAD kSize kparallel hs Bn hB1 (by omega),
    toUnsigned_natCast Bn (by omega)]
  have hoff : (if hasDomain then (ho : Int) else 0)
      = ((if hasDomain then ho else 0 : Nat) : Int) := by
    cases hasDomain <;> simp
  rw [hoff]
  have hoffle : (if hasDomain then ho else 0) ≤ ho := by
    cases hasDomain <;> simp
  have hg1 : (hs + Bn - 1) / Bn * Bn ≤ hs + Bn - 1 := Nat.div_mul_le_self _ _
  have hg2 : hs ≤ (hs + Bn - 1) / Bn * Bn := by
    have h1 := Nat.div_add_mod' (hs + Bn - 1) Bn
    have h2 := Nat.mod_lt (hs + Bn - 1) (show 0 < Bn by omega)
    omega
  generalize (hs + Bn - 1) / Bn = g at hg1 hg2 ⊢
  have hthread : ∀ b t, b < g → t < Bn → b * Bn + t + ho < 2 ^ 32 := by
    intro b t hb ht
    have h1 : (b + 1) * Bn ≤ g * Bn := Nat.mul_le_mul_right Bn hb
    rw [Nat.add_mul, Nat.one_mul] at h1
    omega
  have hke : ∀ b t, b < g → t < Bn → kernelElement hasDomain (ho : Int) (hs : Int) Bn b t
      = if b * Bn + t < hs then some (b * Bn + t + (if hasDomain then ho else 0))
        else none :=
    fun b t hb ht => kernelElement_eq hasDomain ho hs Bn b t (by omega) (hthread b t hb ht)
  generalize (if hasDomain then ho else 0) = off at hoffle hke ⊢
  have hBpos : 0 < Bn := by omega
  constructor
  · intro b t e hb ht he
    rw [hke b t hb ht] at he
    split at he
    · injection he with he
      omega
    · cases he
  · intro e h1 h2
    have hlt : (e - off) / Bn < g := by
      apply Nat.div_lt_of_lt_mul
      rw [Nat.mul_comm]
      omega
    have hdm := Nat.div_add_mod' (e - off) Bn
    refine ⟨((e - off) / Bn, (e - off) % Bn), ⟨hlt, Nat.mod_lt _ hBpos, ?_⟩, ?_⟩
    · rw [hke _ _ hlt (Nat.mod_lt _ hBpos), hdm, if_pos (by omega)]
      congr 1
      omega
    · rintro ⟨b, t⟩ ⟨hb, ht, he⟩
      simp only at hb ht he
      rw [hke b t hb ht] at he
      split at he
      · injection he with he
        have hbt : t + Bn * b = e - off := by
          rw [Nat.mul_comm]
          omega
        have hu := (Nat.div_mod_unique hBpos).mpr ⟨hbt, ht⟩
        rw [Prod.mk.injEq]
        exact ⟨hu.1.symm, hu.2.symm⟩
      · cases he

theorem horizontal_coverage_witness :
    grid 128 4 80 1000 true = ⟨8, 20, 1⟩ ∧
    kernelElement true 200 1000 (toUnsigned 128) 7 103 = some 1199 ∧
    kernelElement true 200 1000 (toUnsigned 128) 7 104 = none ∧
    ((∀ blockIdx threadIdx e,
      blockIdx < (grid 128 4 80 1000 true).x →
      threadIdx < toUnsigned 128 →
      kernelElement true 200 1000 (toUnsigned 128) blockIdx threadIdx = some e →
      (if true then (200 : Int) else 0) ≤ (e : Int) ∧
        (e : Int) < (if true then (200 : Int) else 0) + 1000) ∧
    (∀ e : Nat, (if true then (200 : Int) else 0) ≤ (e : Int) →
      (e : Int) < (if true then (200 : Int) else 0) + 1000 →
      ∃! idx : Nat × Nat,
        idx.1 < (grid 128 4 80 1000 true).x ∧
        idx.2 < toUnsigned 128 ∧
        kernelElement true 200 1000 (toUnsigned 128) idx.1 idx.2 = some e)) :=
  ⟨by decide, by decide, by decide,
    horizontal_coverage 128 4 80 200 1000 true true (by decide) (by decide) (by decide)
      (by decide) (by decide)⟩

end CoverageClaims


/-! ## Claims on neighbour tables and the mesh descriptor -/

section MeshTableClaims

/-- C27 (neighbour lists longer than the capacity). When the chain has a first element and
the element count matches, `generateNbhTable` produces a table, and for every element whose
neighbour list has more than `numNbhPerElement` entries the column of the element (the
entries at `j * numElements + i` for the slots `j` below `numNbhPerElement`) holds exactly
the first `numNbhPerElement` neighbours in order; the neighbours from position
`numNbhPerElement` on are in no slot. -/
theorem nbhTable_truncates (mesh : Mesh) (chain : List LocationType) (front : LocationType)
    (numElements numNbhPerElement : Nat) (includeCenter : Bool)
    (hfront : chain.head? = some front)
    (hcount : (nbhElems mesh front).length = numElements) :
    ∃ table,
      generateNbhTable mesh chain numElements numNbhPerElement includeCenter = some table ∧
      ∀ (i : Nat) (elem : Int), (nbhElems mesh front)[i]? = some elem →
        numNbhPerElement < (mesh.getNeighbors chain elem includeCenter).length →
        (List.range numNbhPerElement).map (fun (j : Nat) => table[j * numElements + i]?)
          = ((mesh.getNeighbors chain elem includeCenter).take numNbhPerElement).map some := by
  refine ⟨_, generateNbhTable_eq mesh chain front numElements numNbhPerElement includeCenter
    hfront hcount, ?_⟩
  intro i elem hi hlong
  apply List.ext_getElem
  · simp only [List.length_map, List.length_range, List.length_take]
    omega
  · intro j h1 h2
    have hj : j < numNbhPerElement := by
      simpa using h1
    simp only [List.getElem_map, List.getElem_range, List.getElem_take]
    rw [nbhTable_get mesh chain front numElements numNbhPerElement includeCenter hcount
      i j elem hi hj, List.getElem?_eq_getElem (by omega)]
    rfl

/-- Two cells with three neighbours each and capacity 2: the table is produced and holds
the first two neighbours of each cell (slot-major `[1, 11, 2, 12]`); the third neighbours
`3` and `13` are dropped. -/
theorem nbhTable_truncates_witness :
    generateNbhTable ⟨[0, 10], [], [], fun _ c _ => [c + 1, c + 2, c + 3]⟩
        [LocationType.Cells, LocationType.Edges] 2 2 false = some [1, 11, 2, 12] ∧
    ∃ table,
      generateNbhTable ⟨[0, 10], [], [], fun _ c _ => [c + 1, c + 2, c + 3]⟩
        [LocationType.Cells, LocationType.Edges] 2 2 false = some table ∧
      ∀ (i : Nat) (elem : Int), ([0, 10] : List Int)[i]? = some elem →
        2 < [elem + 1, elem + 2, elem + 3].length →
        (List.range 2).map (fun (j : Nat) => table[j * 2 + i]?)
          = ([elem + 1, elem + 2, elem + 3].take 2).map some :=
  ⟨by decide,
    nbhTable_truncates ⟨[0, 10], [], [], fun _ c _ => [c + 1, c + 2, c + 3]⟩
      [LocationType.Cells, LocationType.Edges] LocationType.Cells 2 2 false rfl rfl⟩

theorem mem_foldl_unorderedSetInsert {β : Type} [DecidableEq β] (l s : List β) (z : β) :
    z ∈ l.foldl unorderedSetInsert s ↔ z ∈ s ∨ z ∈ l := by
  induction l generalizing s with
  | nil => simp
  | cons x l ih =>
    rw [List.foldl_cons, ih, mem_unorderedSetInsert, List.mem_cons]
    tauto

/-- One collector visiting DoMethod after DoMethod holds what it held before and what
occurs in the DoMethods. -/
theorem mem_collect_doMethods (sp : UnstructuredIterationSpace) (doMethods : List DoMethod)
    (init : List UnstructuredIterationSpace) :
    sp ∈ doMethods.foldl (fun spaces_ doMethod =>
        CollectIterationSpaces.visitChildren spaces_ doMethod.ast) init
      ↔ sp ∈ init ∨ ∃ doMethod ∈ doMethods, sp ∈ ASTNode.iterSpacesOfList doMethod.ast := by
  induction doMethods generalizing init with
  | nil => simp
  | cons d ds ih =>
    rw [List.foldl_cons, ih, mem_visitChildren]
    simp only [List.mem_cons, exists_eq_or_imp]
    tauto

theorem mem_stageChains (sp : UnstructuredIterationSpace) (stage : Stage) :
    sp ∈ stageChains stage
      ↔ ∃ doMethod ∈ stage.doMethods, sp ∈ ASTNode.iterSpacesOfList doMethod.ast := by
  unfold stageChains
  rw [mem_collect_doMethods]
  simp

/-- The set `spaces` of `generateGpuMesh` while the DoMethods are visited. -/
theorem mem_gpuMesh_foldl (sp : UnstructuredIterationSpace) (doMethods : List DoMethod)
    (acc : List UnstructuredIterationSpace × List UnstructuredIterationSpace)
    (hacc : ∀ z ∈ acc.1, z ∈ acc.2) :
    sp ∈ (doMethods.foldl
        (fun (acc : List UnstructuredIterationSpace × List UnstructuredIterationSpace)
            doMethod =>
          let spaces_ := CollectIterationSpaces.visitChildren acc.1 doMethod.ast
          (spaces_, spaces_.foldl unorderedSetInsert acc.2)) acc).2
      ↔ sp ∈ acc.2 ∨ ∃ doMethod ∈ doMethods, sp ∈ ASTNode.iterSpacesOfList doMethod.ast := by
  induction doMethods generalizing acc with
  | nil => simp
  | cons d ds ih =>
    rw [List.foldl_cons, ih]
    · simp only [mem_foldl_unorderedSetInsert, mem_visitChildren, List.mem_cons,
        exists_eq_or_imp]
      have := hacc sp
      tauto
    · intro z hz
      simp only [mem_foldl_unorderedSetInsert]
      exact Or.inr hz

theorem mem_gpuMeshSpaces (sp : UnstructuredIterationSpace) (iir : List MultiStage) :
    sp ∈ gpuMeshSpaces iir
      ↔ ∃ doMethod ∈ allDoMethods iir, sp ∈ ASTNode.iterSpacesOfList doMethod.ast := by
  unfold gpuMeshSpaces
  rw [mem_gpuMesh_foldl sp (allDoMethods iir) ([], []) (fun z hz => hz)]
  simp

theorem generateGpuMesh_tables (iir : List MultiStage) :
    (generateGpuMesh iir).members = gpuMeshSpaces iir ∧
    (generateGpuMesh iir).fromGlobalCtor = gpuMeshSpaces iir := by
  have h := foldl_push (fun (x : UnstructuredIterationSpace) => x) (gpuMeshSpaces iir) []
  simp only [List.map_id', List.nil_append] at h
  exact ⟨h, h⟩

/-- C28 (tables referenced by a kernel call exist in the mesh descriptor). For every
instantiation and every stage in it, the iteration spaces collected from the DoMethods of
the stage are among those collected over all DoMethods of the instantiation; hence every
table pointer passed at the kernel call of the stage is a declared member of `GpuTriMesh`
that the constructor from the global mesh initialises. -/
theorem call_tables_declared (locToStrideString : LocationType → String)
    (globalsMapEmpty : Bool) (iir : List MultiStage) (ms : MultiStage) (hms : ms ∈ iir)
    (stage : Stage) (hstage : stage ∈ ms.stages) :
    (∀ sp ∈ stageChains stage, sp ∈ gpuMeshSpaces iir) ∧
    (∀ chain, CallArg.meshTable chain ∈ kernelCallArgs locToStrideString globalsMapEmpty stage →
      chain ∈ (generateGpuMesh iir).members ∧
      chain ∈ (generateGpuMesh iir).fromGlobalCtor) := by
  have hsub : ∀ sp ∈ stageChains stage, sp ∈ gpuMeshSpaces iir := by
    intro sp hsp
    rw [mem_stageChains] at hsp
    obtain ⟨doMethod, hdo, h⟩ := hsp
    rw [mem_gpuMeshSpaces]
    refine ⟨doMethod, ?_, h⟩
    unfold allDoMethods
    simp only [List.mem_flatMap]
    exact ⟨ms, hms, stage, hstage, hdo⟩
  refine ⟨hsub, ?_⟩
  intro chain hchain
  have hmem : chain ∈ stageChains stage := by
    rw [kernelCallArgs_eq] at hchain
    cases globalsMapEmpty <;> cases stage.unstructuredIterationSpace.isSome <;>
      simpa using hchain
  rw [(generateGpuMesh_tables iir).1, (generateGpuMesh_tables iir).2]
  exact ⟨hsub chain hmem, hsub chain hmem⟩

/-- An instantiation with two stages, each reducing over one chain: the descriptor declares
both tables, and every table passed at the call of the second stage is declared. -/
theorem call_tables_declared_witness :
    gpuMeshSpaces
      [⟨LoopOrderKind.Parallel,
        [⟨0, LocationType.Cells, none, [],
            [⟨⟨0, 0, 0, 0, false, true⟩,
              [ASTNode.ReductionOverNeighborExpr
                ⟨[LocationType.Cells, LocationType.Edges], false⟩ []]⟩]⟩,
          ⟨1, LocationType.Edges, none, [],
            [⟨⟨0, 0, 0, 0, false, true⟩,
              [ASTNode.LoopStmt ⟨[LocationType.Edges, LocationType.Cells], false⟩ []]⟩]⟩]⟩]
      = [⟨[LocationType.Cells, LocationType.Edges], false⟩,
          ⟨[LocationType.Edges, LocationType.Cells], false⟩] ∧
    ((∀ sp ∈ stageChains
        ⟨1, LocationType.Edges, none, [],
          [⟨⟨0, 0, 0, 0, false, true⟩,
            [ASTNode.LoopStmt ⟨[LocationType.Edges, LocationType.Cells], false⟩ []]⟩]⟩,
      sp ∈ gpuMeshSpaces
        [⟨LoopOrderKind.Parallel,
          [⟨0, LocationType.Cells, none, [],
              [⟨⟨0, 0, 0, 0, false, true⟩,
                [ASTNode.ReductionOverNeighborExpr
                  ⟨[LocationType.Cells, LocationType.Edges], false⟩ []]⟩]⟩,
            ⟨1, LocationType.Edges, none, [],
              [⟨⟨0, 0, 0, 0, false, true⟩,
                [ASTNode.LoopStmt ⟨[LocationType.Edges, LocationType.Cells], false⟩
                  []]⟩]⟩]⟩]) ∧
    (∀ chain, CallArg.meshTable chain ∈ kernelCallArgs (fun _ => "Stride") true
        ⟨1, LocationType.Edges, none, [],
          [⟨⟨0, 0, 0, 0, false, true⟩,
            [ASTNode.LoopStmt ⟨[LocationType.Edges, LocationType.Cells], false⟩ []]⟩]⟩ →
      chain ∈ (generateGpuMesh
        [⟨LoopOrderKind.Parallel,
          [⟨0, LocationType.Cells, none, [],
              [⟨⟨0, 0, 0, 0, false, true⟩,
                [ASTNode.ReductionOverNeighborExpr
                  ⟨[LocationType.Cells, LocationType.Edges], false⟩ []]⟩]⟩,
            ⟨1, LocationType.Edges, none, [],
              [⟨⟨0, 0, 0, 0, false, true⟩,
                [ASTNode.LoopStmt ⟨[LocationType.Edges, LocationType.Cells], false⟩
                  []]⟩]⟩]⟩]).members ∧
      chain ∈ (generateGpuMesh
        [⟨LoopOrderKind.Parallel,
          [⟨0, LocationType.Cells, none, [],
              [⟨⟨0, 0, 0, 0, false, true⟩,
                [ASTNode.ReductionOverNeighborExpr
                  ⟨[LocationType.Cells, LocationType.Edges], false⟩ []]⟩]⟩,
            ⟨1, LocationType.Edges, none, [],
              [⟨⟨0, 0, 0, 0, false, true⟩,
                [ASTNode.LoopStmt ⟨[LocationType.Edges, LocationType.Cells], false⟩
                  []]⟩]⟩]⟩]).fromGlobalCtor)) :=
  ⟨by decide,
    call_tables_declared (fun _ => "Stride") true _
      ⟨LoopOrderKind.Parallel,
        [⟨0, LocationType.Cells, none, [],
            [⟨⟨0, 0, 0, 0, false, true⟩,
              [ASTNode.ReductionOverNeighborExpr
                ⟨[LocationType.Cells, LocationType.Edges], false⟩ []]⟩]⟩,
          ⟨1, LocationType.Edges, none, [],
            [⟨⟨0, 0, 0, 0, false, true⟩,
              [ASTNode.LoopStmt ⟨[LocationType.Edges, LocationType.Cells], false⟩ []]⟩]⟩]⟩
      (List.mem_singleton.mpr rfl) _ (List.mem_cons_of_mem _ (List.mem_singleton.mpr rfl))⟩

end MeshTableClaims


/-! ## Claims on `free` and on the accesses to the stencil list -/

section LifecycleClaims

/-- The storage after the `cudaFree` statements of `free`. -/
theorem free_fields {α : Type} (temporaries : List (Int × FieldDimensions))
    (fields : Int → List α) (fieldID : Int) :
    (temporaries.foldl
        (fun (fields : Int → List α) (temporary : Int × FieldDimensions) =>
          Function.update fields temporary.1 [])
        fields) fieldID
      = if fieldID ∈ temporaries.map Prod.fst then [] else fields fieldID := by
  induction temporaries generalizing fields with
  | nil => simp
  | cons t ts ih =>
    rw [List.foldl_cons, ih]
    by_cases h1 : fieldID ∈ ts.map Prod.fst
    · simp [h1]
    · rw [if_neg h1, Function.update_apply]
      by_cases h2 : fieldID = t.1
      · simp [h2]
      · simp [h1, h2]

/-- Every event the stage loop of `run` adds is a kernel launch. -/
theorem run_loop_events {α : Type} (BLOCK_SIZE LEVELS_PER_THREAD : Int)
    (launches : List StageLaunch)
    (kernel : StageLaunch → dim3 → Int → Int → (Int → List α) → (Int → List α))
    (acc : StencilState α × List RunEvent) (ev : RunEvent)
    (hev : ev ∈ (launches.foldl (fun acc launch =>
        let s := acc.1
        let hoffset := launch.hOffset.eval s.mesh_
        let hsize := launch.hSize.eval s.mesh_
        if hsize ≠ 0 then
          let dG := grid BLOCK_SIZE LEVELS_PER_THREAD
            (launch.k_size.eval (kernelEnv s.kSize_ 0 LEVELS_PER_THREAD)) hsize
            launch.iskparallel
          ({ s with fields := kernel launch dG hoffset hsize s.fields },
            acc.2 ++ [RunEvent.kernelLaunch launch.stageID dG s.stream_ hoffset hsize])
        else acc) acc).2) :
    ev ∈ acc.2 ∨ ∃ stageID dG launchStream hOffset hSize,
      ev = RunEvent.kernelLaunch stageID dG launchStream hOffset hSize := by
  induction launches generalizing acc with
  | nil => exact Or.inl hev
  | cons launch launches ih =>
    rw [List.foldl_cons] at hev
    rcases ih _ hev with h | h
    · by_cases hs : launch.hSize.eval acc.1.mesh_ ≠ 0
      · simp only [hs, ne_eq, not_false_eq_true, if_true, List.mem_append,
          List.mem_singleton] at h
        rcases h with h | h
        · exact Or.inl h
        · exact Or.inr ⟨_, _, _, _, _, h⟩
      · simp only [hs, if_false] at h
        exact Or.inl h
    · exact Or.inr h

/-- C29 (free does not reset the set-up flag). In the emitted stencil state, `free()`
leaves `is_setup_`, `kSize_`, `mesh_` and `stream_` as they are, releases the storage of
every temporary and leaves the storage of every other field as it is; in the state reached
by `setup()` followed by `free()` the flag is still true, and a following `run()` does not
take the not-set-up return: it prints no diagnostic, every event it produces is a kernel
launch. -/
theorem free_keeps_setup_flag {α : Type} [Inhabited α] (stencilName : String)
    (BLOCK_SIZE LEVELS_PER_THREAD : Int) (launches : List StageLaunch)
    (kernel : StageLaunch → dim3 → Int → Int → (Int → List α) → (Int → List α))
    (ICOChainSize : UnstructuredIterationSpace → Nat) (stencil : Stencil)
    (mesh : GpuTriMesh) (kSize stream : Nat) (fieldKSize : Int → Int) (s : StencilState α) :
    (∀ t : StencilState α,
      (free stencil t).is_setup_ = t.is_setup_ ∧ (free stencil t).kSize_ = t.kSize_ ∧
      (free stencil t).mesh_ = t.mesh_ ∧ (free stencil t).stream_ = t.stream_ ∧
      (free stencil t).fieldKSize_ = t.fieldKSize_ ∧
      ∀ fieldID : Int, (free stencil t).fields fieldID
        = if fieldID ∈ stencil.temporaries.map Prod.fst then [] else t.fields fieldID) ∧
    (free stencil (setup ICOChainSize stencil mesh kSize stream fieldKSize s)).is_setup_
      = true ∧
    (free stencil (setup ICOChainSize stencil mesh kSize stream fieldKSize s)).kSize_
      = kSize ∧
    (free stencil (setup ICOChainSize stencil mesh kSize stream fieldKSize s)).stream_
      = stream ∧
    (∀ message : String, RunEvent.printf message ∉
      (run stencilName BLOCK_SIZE LEVELS_PER_THREAD launches kernel
        (free stencil (setup ICOChainSize stencil mesh kSize stream fieldKSize s))).2) ∧
    (∀ ev ∈ (run stencilName BLOCK_SIZE LEVELS_PER_THREAD launches kernel
        (free stencil (setup ICOChainSize stencil mesh kSize stream fieldKSize s))).2,
      ∃ stageID dG launchStream hOffset hSize,
        ev = RunEvent.kernelLaunch stageID dG launchStream hOffset hSize) := by
  have hflag : (free stencil
      (setup ICOChainSize stencil mesh kSize stream fieldKSize s)).is_setup_ = true := rfl
  have hevents : ∀ ev ∈ (run stencilName BLOCK_SIZE LEVELS_PER_THREAD launches kernel
      (free stencil (setup ICOChainSize stencil mesh kSize stream fieldKSize s))).2,
      ∃ stageID dG launchStream hOffset hSize,
        ev = RunEvent.kernelLaunch stageID dG launchStream hOffset hSize := by
    intro ev hev
    unfold run at hev
    simp only [hflag, Bool.not_true, Bool.false_eq_true, if_false] at hev
    rcases run_loop_events BLOCK_SIZE LEVELS_PER_THREAD launches kernel _ ev hev with h | h
    · simp at h
    · exact h
  refine ⟨?_, hflag, rfl, rfl, ?_, hevents⟩
  · intro t
    exact ⟨rfl, rfl, rfl, rfl, rfl, fun fieldID => free_fields stencil.temporaries t.fields fieldID⟩
  · intro message hmem
    obtain ⟨_, _, _, _, _, h⟩ := hevents _ hmem
    cases h

/-- C30 (accesses to the first stencil): the generators at an instantiation without a
stencil. The asserted precondition `size() <= 1` holds and the run-function generator
emits a bare `return`, but the generators of the verify functions, of the memory
management functions and of the static members read `stencils[0]` outside the bounds of the
empty list; `generateStencilInstantiation`, which calls them one after the other, reaches
the first of these accesses. -/
theorem stencil_access_without_stencil :
    ([] : List Stencil).length ≤ 1 ∧
    generateAllAPIRunFunctions_stencil ([] : List Stencil) = Except.ok none ∧
    generateAllAPIVerifyFunctions_stencil ([] : List Stencil)
      = Except.error GenFailure.outOfBounds ∧
    generateMemMgmtFunctions_stencil ([] : List Stencil)
      = Except.error GenFailure.outOfBounds ∧
    generateStaticMembersTrailer_stencil ([] : List Stencil)
      = Except.error GenFailure.outOfBounds ∧
    generateStencilInstantiation_stencils ([] : List Stencil)
      = Except.error GenFailure.outOfBounds :=
  ⟨by decide, rfl, rfl, rfl, rfl, rfl⟩

end LifecycleClaims


/-! ## Parallel order: the chunks of an interval anchored at level 0 or at both ends -/

section ParallelCoverage

/-- Consecutive chunks of `L` levels, cut at `n`, make up the levels below `min (g * L) n`. -/
theorem chunks_cover (L n g : Nat) :
    (List.range g).flatMap
        (fun (k : Nat) => (List.range (min ((k + 1) * L) n - k * L)).map (fun (i : Nat) => k * L + i))
      = List.range (min (g * L) n) := by
  induction g with
  | zero => simp
  | succ g ih =>
    rw [List.range_succ, List.flatMap_append, ih, List.flatMap_singleton]
    have hmul : (g + 1) * L = g * L + L := by ring
    by_cases hle : g * L ≤ n
    · have hsum : min ((g + 1) * L) n = g * L + (min ((g + 1) * L) n - g * L) := by
        omega
      have hmin : min (g * L) n = g * L := by omega
      rw [hmin]
      generalize min ((g + 1) * L) n - g * L = m at hsum ⊢
      rw [hsum, List.range_add]
    · have h0 : min ((g + 1) * L) n - g * L = 0 := by omega
      have h1 : min ((g + 1) * L) n = min (g * L) n := by omega
      rw [h0, h1]
      simp

/-- The vertical extent `run` passes to `grid` is the length of the resolved interval when
the lower bound is absolute at level 0 or both bounds are end-relative. -/
theorem runKSize_eval (interval : Interval) (kSize kidx lpt : Int)
    (hanchor : (interval.lowerLevelIsEnd = false ∧ interval.lowerLevel = 0) ∨
      (interval.lowerLevelIsEnd = true ∧ interval.upperLevelIsEnd = true)) :
    (runKSize interval).eval (kernelEnv kSize kidx lpt)
      = resolvedBound interval Bound.upper kSize - resolvedBound interval Bound.lower kSize := by
  unfold runKSize resolvedBound
  rcases hanchor with ⟨h1, h2⟩ | ⟨h1, h2⟩
  · cases h3 : interval.upperLevelIsEnd <;>
      simp [Interval.levelIsEnd, Interval.offset, Interval.level, h1, h2, h3, CExpr.eval,
        kernelEnv]
  · simp [Interval.levelIsEnd, Interval.offset, Interval.level, h1, h2, CExpr.eval]

/-- The bounds `klo` and `khi` of one chunk of a Parallel kernel, for an interval whose
lower bound is absolute at level 0 or whose bounds are both end-relative. -/
theorem parallel_bounds_eval (interval : Interval) (kSize : Int) (k L : Nat)
    (hanchor : (interval.lowerLevelIsEnd = false ∧ interval.lowerLevel = 0) ∨
      (interval.lowerLevelIsEnd = true ∧ interval.upperLevelIsEnd = true)) :
    (generateKIntervalBounds interval LoopOrderKind.Parallel).1.eval
        (kernelEnv kSize (k : Int) (L : Int))
      = ((k * L : Nat) : Int) + resolvedBound interval Bound.lower kSize ∧
    (generateKIntervalBounds interval LoopOrderKind.Parallel).2.eval
        (kernelEnv kSize (k : Int) (L : Int))
      = (((k + 1) * L : Nat) : Int) + resolvedBound interval Bound.lower kSize := by
  unfold generateKIntervalBounds resolvedBound
  rcases hanchor with ⟨h1, h2⟩ | ⟨h1, h2⟩ <;>
    simp [Interval.levelIsEnd, Interval.offset, Interval.level, h1, h2, CExpr.eval,
      kernelEnv]

/-- The levels of one chunk of a Parallel kernel, for an interval whose lower bound is
absolute at level 0 or whose bounds are both end-relative, of resolved length `n`. -/
theorem parallel_chunk_levels (interval : Interval) (kSize : Int) (k L n : Nat)
    (hanchor : (interval.lowerLevelIsEnd = false ∧ interval.lowerLevel = 0) ∨
      (interval.lowerLevelIsEnd = true ∧ interval.upperLevelIsEnd = true))
    (hn : resolvedBound interval Bound.upper kSize
      = resolvedBound interval Bound.lower kSize + (n : Int)) :
    kernelLevels interval LoopOrderKind.Parallel kSize (k : Int) (L : Int)
      = ((List.range (min ((k + 1) * L) n - k * L)).map (fun (i : Nat) => k * L + i)).map
          (fun (j : Nat) => resolvedBound interval Bound.lower kSize + (j : Int)) := by
  obtain ⟨hklo, hkhi⟩ := parallel_bounds_eval interval kSize k L hanchor
  unfold kernelLevels
  simp only [hklo, hkhi, kernelKSize_eval, hn]
  generalize resolvedBound interval Bound.lower kSize = lo
  have hmul : (k + 1) * L = k * L + L := by ring
  rw [kLoop_ascending LoopOrderKind.Parallel (by decide) _ _ _ _ (by omega), List.map_map]
  have hlen : (min ((((k + 1) * L : Nat) : Int) + lo) (lo + (n : Int))
      - (((k * L : Nat) : Int) + lo)).toNat = min ((k + 1) * L) n - k * L := by
    omega
  rw [hlen]
  apply List.map_congr_left
  intro i _
  simp only [Function.comp_apply]
  push_cast
  ring

/-- C25 (Parallel-order coverage), as it holds: for a Parallel stage whose interval has
its lower bound absolute at level 0, or both bounds end-relative, with resolved bounds
`lo ≤ hi`: launched with the `grid.y` that `grid` computes from the vertical extent of
`run`, the levels at which the body executes over the chunk indices `0 ≤ kidx < grid.y`,
in the order of the chunks, are `lo, lo + 1, ..., hi - 1`, each once, for every
`LEVELS_PER_THREAD ≥ 1`. The values are those of `int` arithmetic that does not overflow:
`lo ≥ -2 ^ 31`, and `hi + LEVELS_PER_THREAD` and the sum `hi - lo + LEVELS_PER_THREAD` of
`grid` are at most `2 ^ 31 - 1`; the bounds `klo` and `khi` of every launched chunk then
lie in the `int` range. -/
theorem parallel_coverage_anchored (interval : Interval)
    (BLOCK_SIZE LEVELS_PER_THREAD kSize elSize : Int)
    (hanchor : (interval.lowerLevelIsEnd = false ∧ interval.lowerLevel = 0) ∨
      (interval.lowerLevelIsEnd = true ∧ interval.upperLevelIsEnd = true))
    (hle : resolvedBound interval Bound.lower kSize ≤ resolvedBound interval Bound.upper kSize)
    (hL : 1 ≤ LEVELS_PER_THREAD)
    (hlo : -2 ^ 31 ≤ resolvedBound interval Bound.lower kSize)
    (hhi : resolvedBound interval Bound.upper kSize + LEVELS_PER_THREAD ≤ 2 ^ 31 - 1)
    (hInt : resolvedBound interval Bound.upper kSize - resolvedBound interval Bound.lower kSize
      + LEVELS_PER_THREAD ≤ 2 ^ 31 - 1) :
    (∀ kidx : Nat,
      kidx < (grid BLOCK_SIZE LEVELS_PER_THREAD
        ((runKSize interval).eval (kernelEnv kSize 0 LEVELS_PER_THREAD)) elSize true).y →
      -2 ^ 31 ≤ (generateKIntervalBounds interval LoopOrderKind.Parallel).1.eval
          (kernelEnv kSize (kidx : Int) LEVELS_PER_THREAD) ∧
      (generateKIntervalBounds interval LoopOrderKind.Parallel).2.eval
          (kernelEnv kSize (kidx : Int) LEVELS_PER_THREAD) ≤ 2 ^ 31 - 1) ∧
    (List.range (grid BLOCK_SIZE LEVELS_PER_THREAD
        ((runKSize interval).eval (kernelEnv kSize 0 LEVELS_PER_THREAD)) elSize true).y).flatMap
        (fun (kidx : Nat) =>
          kernelLevels interval LoopOrderKind.Parallel kSize (kidx : Int) LEVELS_PER_THREAD)
      = (List.range (resolvedBound interval Bound.upper kSize
            - resolvedBound interval Bound.lower kSize).toNat).map
          (fun (i : Nat) => resolvedBound interval Bound.lower kSize + (i : Int)) := by
  rw [runKSize_eval interval kSize 0 LEVELS_PER_THREAD hanchor]
  obtain ⟨n, hn⟩ : ∃ n : Nat, resolvedBound interval Bound.upper kSize
      = resolvedBound interval Bound.lower kSize + (n : Int) :=
    ⟨(resolvedBound interval Bound.upper kSize
      - resolvedBound interval Bound.lower kSize).toNat, by omega⟩
  lift LEVELS_PER_THREAD to ℕ using (by omega : 0 ≤ LEVELS_PER_THREAD) with L
  have hL1 : 1 ≤ L := by omega
  have hdiff : resolvedBound interval Bound.upper kSize
      - resolvedBound interval Bound.lower kSize = (n : Int) := by omega
  rw [hdiff] at hInt ⊢
  have hy : (grid BLOCK_SIZE (L : Int) (n : Int) elSize true).y = (n + L - 1) / L := by
    simp only [grid, if_true]
    rw [toInt32_sum (n : Int) (L : Int) (by omega) (by omega) hInt,
      Int.tdiv_eq_ediv (by omega) (by omega)]
    have hcast : ((n : Int) + (L : Int) - 1) = ((n + L - 1 : Nat) : Int) := by omega
    rw [hcast, ← Int.ofNat_ediv]
    apply toUnsigned_natCast
    have := Nat.div_le_self (n + L - 1) L
    omega
  rw [hy]
  have hg1 : (n + L - 1) / L * L ≤ n + L - 1 := Nat.div_mul_le_self _ _
  have hg2 : n ≤ (n + L - 1) / L * L := by
    have h1 := Nat.div_add_mod' (n + L - 1) L
    have h2 := Nat.mod_lt (n + L - 1) (show 0 < L by omega)
    omega
  constructor
  · intro kidx hk
    obtain ⟨hklo, hkhi⟩ := parallel_bounds_eval interval kSize kidx L hanchor
    rw [hklo, hkhi]
    have h1 : (kidx + 1) * L ≤ (n + L - 1) / L * L := Nat.mul_le_mul_right L hk
    generalize (n + L - 1) / L = g at hg1 h1
    constructor
    · omega
    · omega
  · simp only [parallel_chunk_levels interval kSize _ L n hanchor hn]
    rw [← List.map_flatMap, chunks_cover, Int.toNat_natCast, Nat.min_eq_right hg2]

/-- The interval from level `0 + 2` to `End - 1` with `kSize = 10` and 4 levels per thread:
the extent is 7, `grid.y` is 2, chunk 0 runs `2, 3, 4, 5`, chunk 1 runs `6, 7, 8`, and
together they are the levels `2, ..., 8`. -/
theorem parallel_coverage_anchored_witness :
    (grid 128 4 ((runKSize ⟨0, 0, 2, -1, false, true⟩).eval (kernelEnv 10 0 4)) 1000 true).y
      = 2 ∧
    kernelLevels ⟨0, 0, 2, -1, false, true⟩ LoopOrderKind.Parallel 10 0 4 = [2, 3, 4, 5] ∧
    kernelLevels ⟨0, 0, 2, -1, false, true⟩ LoopOrderKind.Parallel 10 1 4 = [6, 7, 8] ∧
    (List.range
        (grid 128 4 ((runKSize ⟨0, 0, 2, -1, false, true⟩).eval (kernelEnv 10 0 4)) 1000
          true).y).flatMap
        (fun (kidx : Nat) =>
          kernelLevels ⟨0, 0, 2, -1, false, true⟩ LoopOrderKind.Parallel 10 (kidx : Int) 4)
      = (List.range (resolvedBound ⟨0, 0, 2, -1, false, true⟩ Bound.upper 10
            - resolvedBound ⟨0, 0, 2, -1, false, true⟩ Bound.lower 10).toNat).map
          (fun (i : Nat) => resolvedBound ⟨0, 0, 2, -1, false, true⟩ Bound.lower 10 + (i : Int)) :=
  ⟨by decide, by decide, by decide,
    (parallel_coverage_anchored ⟨0, 0, 2, -1, false, true⟩ 128 4 10 1000
      (Or.inl ⟨rfl, rfl⟩) (by decide) (by decide) (by decide) (by decide) (by decide)).2⟩

end ParallelCoverage

end dawn
